import Mathlib

/-!
Shallow embedding of the lithify SLAS core: the schema index
(`slas_schema_index.py`), the shape classifier (`slas_classifier.py`), the
allOf refinement collapser (`slas_allof_processor.py`), the alias synthesizer
(`slas_alias_generator.py`) and the field mapper (`slas_field_mapper.py`),
together with theorems settling the specification claims about them.

Modeling conventions, used consistently below:
- JSON values are a Lean inductive; numbers are modeled as `Int` (every
  numeric constraint exercised by the source and by these theorems is
  integral, and the comparisons in the merge/satisfiability code behave
  identically on `Int`).
- Python dicts are association lists in insertion order; assignment updates
  in place or appends, exactly like a Python dict.
- Python exceptions are an `Except PyExc` result; `ValueError` is the only
  exception the collapser catches, so the distinction between exception
  classes is preserved.  `warnings.warn` calls are modeled as a list of
  warning strings threaded through return values.
- CPython object identity (`id(node)`), used by the index for
  `subschema_bases` and by the collapser for cycle detection, is modeled by
  the node's address in the loaded document forest: the originating file name
  plus the path of raw keys/indices from that file's root.  `json.loads`
  never shares substructure, so two nodes of the index are the same Python
  object exactly when they have the same address.
- File I/O: a schema directory is a list of (file name, parsed document);
  writing a file back with `json.dump(..., sort_keys=True)` is modeled by
  `sortKeysDeep`.
- `urllib.parse` (`urljoin`, `urldefrag`, `urlparse`) is transcribed from the
  CPython implementation, minus the WHATWG control-character stripping and
  IPv6 bracket checking (no input here contains control characters or
  brackets in a netloc).
-/

namespace Lithify

/-- A JSON value as produced by `json.loads`. -/
inductive JSON where
  | null
  | bool (b : Bool)
  | num (n : Int)
  | str (s : String)
  | arr (xs : List JSON)
  | obj (kvs : List (String × JSON))
deriving Inhabited

mutual

/-- Structural equality of JSON values (Python `==` on parsed documents). -/
def JSON.beq : JSON → JSON → Bool
  | .null, .null => true
  | .bool a, .bool b => a == b
  | .num a, .num b => a == b
  | .str a, .str b => a == b
  | .arr a, .arr b => JSON.beqList a b
  | .obj a, .obj b => JSON.beqKvs a b
  | _, _ => false

def JSON.beqList : List JSON → List JSON → Bool
  | [], [] => true
  | x :: xs, y :: ys => JSON.beq x y && JSON.beqList xs ys
  | _, _ => false

def JSON.beqKvs : List (String × JSON) → List (String × JSON) → Bool
  | [], [] => true
  | (k, v) :: xs, (l, w) :: ys => k == l && JSON.beq v w && JSON.beqKvs xs ys
  | _, _ => false

end

mutual

theorem JSON.eq_of_beq : ∀ {a b : JSON}, JSON.beq a b = true → a = b
  | .null, .null, _ => rfl
  | .bool _, .bool _, h => by
    simp only [JSON.beq, beq_iff_eq] at h; exact h ▸ rfl
  | .num _, .num _, h => by
    simp only [JSON.beq, beq_iff_eq] at h; exact h ▸ rfl
  | .str _, .str _, h => by
    simp only [JSON.beq, beq_iff_eq] at h; exact h ▸ rfl
  | .arr a, .arr b, h => by
    simp only [JSON.beq] at h
    exact congrArg JSON.arr (JSON.eqList_of_beqList h)
  | .obj a, .obj b, h => by
    simp only [JSON.beq] at h
    exact congrArg JSON.obj (JSON.eqKvs_of_beqKvs h)

theorem JSON.eqList_of_beqList : ∀ {a b : List JSON}, JSON.beqList a b = true → a = b
  | [], [], _ => rfl
  | x :: xs, y :: ys, h => by
    simp only [JSON.beqList, Bool.and_eq_true] at h
    exact congrArg₂ List.cons (JSON.eq_of_beq h.1) (JSON.eqList_of_beqList h.2)

theorem JSON.eqKvs_of_beqKvs :
    ∀ {a b : List (String × JSON)}, JSON.beqKvs a b = true → a = b
  | [], [], _ => rfl
  | (k, v) :: xs, (l, w) :: ys, h => by
    simp only [JSON.beqKvs, Bool.and_eq_true, beq_iff_eq] at h
    have hk : k = l := h.1.1
    have hv : v = w := JSON.eq_of_beq h.1.2
    have hs : xs = ys := JSON.eqKvs_of_beqKvs h.2
    rw [hk, hv, hs]

end

mutual

theorem JSON.beq_refl : ∀ (a : JSON), JSON.beq a a = true
  | .null => rfl
  | .bool b => by simp [JSON.beq]
  | .num n => by simp [JSON.beq]
  | .str s => by simp [JSON.beq]
  | .arr xs => by simp only [JSON.beq]; exact JSON.beqList_refl xs
  | .obj kvs => by simp only [JSON.beq]; exact JSON.beqKvs_refl kvs

theorem JSON.beqList_refl : ∀ (a : List JSON), JSON.beqList a a = true
  | [] => rfl
  | x :: xs => by
    simp only [JSON.beqList, Bool.and_eq_true]
    exact ⟨JSON.beq_refl x, JSON.beqList_refl xs⟩

theorem JSON.beqKvs_refl : ∀ (a : List (String × JSON)), JSON.beqKvs a a = true
  | [] => rfl
  | (k, v) :: xs => by
    simp only [JSON.beqKvs, Bool.and_eq_true, beq_iff_eq]
    exact ⟨⟨by simp, JSON.beq_refl v⟩, JSON.beqKvs_refl xs⟩

end

instance : DecidableEq JSON := fun a b =>
  if h : JSON.beq a b = true then .isTrue (JSON.eq_of_beq h)
  else .isFalse (fun e => h (e ▸ JSON.beq_refl a))

mutual

/-- Executable structural size of a JSON value, used to compute recursion
fuel for the document walks. -/
def JSON.size : JSON → Nat
  | .null => 1
  | .bool _ => 1
  | .num _ => 1
  | .str _ => 1
  | .arr xs => 1 + JSON.sizeList xs
  | .obj kvs => 1 + JSON.sizeKvs kvs

def JSON.sizeList : List JSON → Nat
  | [] => 0
  | x :: rest => 1 + JSON.size x + JSON.sizeList rest

def JSON.sizeKvs : List (String × JSON) → Nat
  | [] => 0
  | (_, v) :: rest => 1 + JSON.size v + JSON.sizeKvs rest

end

/-- Size bound used for recursion over the values of an object node. -/
theorem sizeOf_snd_lt_of_mem {kvs : List (String × JSON)} {k : String} {v : JSON}
    (h : (k, v) ∈ kvs) : sizeOf v < sizeOf kvs := by
  have h1 := List.sizeOf_lt_of_mem h
  simp only [Prod.mk.sizeOf_spec] at h1
  omega

/-- Size bound used for recursion over the elements of an array node. -/
theorem sizeOf_elem_lt_of_mem {xs : List JSON} {x : JSON} (h : x ∈ xs) :
    sizeOf x < sizeOf (JSON.arr xs) := by
  have h1 := List.sizeOf_lt_of_mem h
  simp only [JSON.arr.sizeOf_spec]
  omega

/-- Python dict lookup on an association list (keys are unique, first match). -/
def assocGet {κ α : Type} [DecidableEq κ] : List (κ × α) → κ → Option α
  | [], _ => none
  | (k, v) :: rest, key => if k = key then some v else assocGet rest key

/-- Python dict assignment: update in place if the key exists, else append. -/
def assocSet {κ α : Type} [DecidableEq κ] : List (κ × α) → κ → α → List (κ × α)
  | [], key, val => [(key, val)]
  | (k, v) :: rest, key, val =>
    if k = key then (k, val) :: rest else (k, v) :: assocSet rest key val

/-- Python `key in dict`. -/
def assocHas {κ α : Type} [DecidableEq κ] (l : List (κ × α)) (k : κ) : Bool :=
  (assocGet l k).isSome

namespace JSON

/-- `schema.get(key)` / `schema[key]` on a dict node (None when not a dict). -/
def get? : JSON → String → Option JSON
  | .obj kvs, k => assocGet kvs k
  | _, _ => none

/-- Python `key in node` for dict nodes (False when not a dict). -/
def hasKey (j : JSON) (k : String) : Bool :=
  (j.get? k).isSome

/-- Python truthiness of a JSON value. -/
def truthy : JSON → Bool
  | .null => false
  | .bool b => b
  | .num n => n != 0
  | .str s => s ≠ ""
  | .arr xs => !xs.isEmpty
  | .obj kvs => !kvs.isEmpty

end JSON

/-- Python truthiness of an optional value (`None` is falsy). -/
def optTruthy : Option JSON → Bool
  | none => false
  | some j => j.truthy

/-! ## Shape classifier (`slas_classifier.py`) -/

/-- `is_scalar_str`: type=string, no structural keywords, at least one string
constraint. -/
def is_scalar_str (schema : JSON) : Bool :=
  match schema with
  | .obj _ =>
    if schema.get? "type" ≠ some (.str "string") then false
    else if ["properties", "items", "oneOf", "anyOf", "allOf"].any schema.hasKey then false
    else ["pattern", "format", "minLength", "maxLength"].any schema.hasKey
  | _ => false

/-- `is_scalar_number`: type number/integer, no structural keywords, at least
one numeric constraint. -/
def is_scalar_number (schema : JSON) : Bool :=
  match schema with
  | .obj _ =>
    if schema.get? "type" ≠ some (.str "number") ∧ schema.get? "type" ≠ some (.str "integer") then
      false
    else if ["properties", "items", "oneOf", "anyOf", "allOf"].any schema.hasKey then false
    else
      ["minimum", "maximum", "exclusiveMinimum", "exclusiveMaximum", "multipleOf"].any
        schema.hasKey
  | _ => false

/-- `is_enum_str`: an enum whose values are all strings, or a string const. -/
def is_enum_str (schema : JSON) : Bool :=
  match schema with
  | .obj _ =>
    (match schema.get? "enum" with
     | some (.arr values) =>
       if values.all (fun v => match v with | .str _ => true | _ => false) then true
       else constCheck schema
     | some _ => constCheck schema
     | none => constCheck schema)
  | _ => false
where
  /-- the `const` fallback at the end of `is_enum_str` -/
  constCheck (schema : JSON) : Bool :=
    match schema.get? "const" with
    | some (.str _) => true
    | _ => false

/-- `is_union_of_scalar_str`: a oneOf of 2+ scalar-string branches, at least
one carrying a pattern. -/
def is_union_of_scalar_str (schema : JSON) : Bool :=
  match schema with
  | .obj _ =>
    match schema.get? "oneOf" with
    | some (.arr branches) =>
      if branches.length < 2 then false
      else if branches.all is_scalar_str then
        branches.any (fun b => b.hasKey "pattern")
      else false
    | _ => false
  | _ => false

/-- `classify_shape`: classify a schema node into a shape tag; the order of
checks is exactly the source's. -/
def classify_shape (schema : JSON) : String :=
  match schema with
  | .obj _ =>
    if is_scalar_str schema then "scalar_str"
    else if is_scalar_number schema then "scalar_number"
    else if is_enum_str schema then "enum_str"
    else if is_union_of_scalar_str schema then "union_scalar_str"
    else if schema.get? "type" = some (.str "object") then
      if schema.hasKey "additionalProperties" ∧ ¬ schema.hasKey "properties" then "map"
      else "object"
    else if schema.get? "type" = some (.str "array") then "array"
    else if ["allOf", "anyOf", "oneOf"].any schema.hasKey then "mixed"
    else if schema.hasKey "$ref" then "ref"
    else "unknown"
  | _ => "unknown"

/-! ## Python exceptions and warnings -/

/-- A raised Python exception.  The collapser catches exactly `ValueError`,
so the class distinction is semantically relevant. -/
inductive PyExc where
  | valueError (msg : String)
  | typeError (msg : String)
  | attributeError (msg : String)
  | keyError (msg : String)
  | indexError (msg : String)
  | exitApp (msg : String)
  | runtimeError (msg : String)
  | recursionError
deriving DecidableEq, Repr

/-- A single-quote character, for rendering Python `repr` output. -/
def sq : String := (Char.ofNat 39).toString

/-! ## allOf processor: structure checks (`slas_allof_processor.py`) -/

/-- `is_allof_refinement`: has an `allOf` list with 2+ branches. -/
def is_allof_refinement (schema : JSON) : Bool :=
  match schema.get? "allOf" with
  | some (.arr branches) => branches.length ≥ 2
  | _ => false

/-! ## UUID pattern specialization -/

/-- `s.lstrip(chars)` for a one-character strip set. -/
def pyLstrip (s : String) (cs : List Char) : String :=
  String.mk (s.toList.dropWhile (· ∈ cs))

/-- `s.rstrip(chars)`. -/
def pyRstrip (s : String) (cs : List Char) : String :=
  String.mk ((s.toList.reverse.dropWhile (· ∈ cs)).reverse)

/-- Indices of hyphens at bracket/brace depth zero (the scanning loop of
`extract_uuid_version_set`).  Depths are integers: Python lets them go
negative on unbalanced input. -/
def topHyphenPositions (cs : List Char) : List Nat :=
  go cs 0 0 0
where
  go : List Char → Nat → Int → Int → List Nat
    | [], _, _, _ => []
    | c :: rest, i, bd, brd =>
      if c = '[' then go rest (i + 1) (bd + 1) brd
      else if c = ']' then go rest (i + 1) (bd - 1) brd
      else if c = Char.ofNat 123 then go rest (i + 1) bd (brd + 1)
      else if c = Char.ofNat 125 then go rest (i + 1) bd (brd - 1)
      else if c = '-' ∧ bd = 0 ∧ brd = 0 then i :: go rest (i + 1) bd brd
      else go rest (i + 1) bd brd

/-- Insert a character into a sorted duplicate-free list (canonical
representation of a Python `set` of one-character strings). -/
def insertChar (c : Char) : List Char → List Char
  | [] => [c]
  | d :: rest =>
    if c = d then d :: rest
    else if c < d then c :: d :: rest
    else d :: insertChar c rest

/-- Canonical (sorted, duplicate-free) set of the characters of a list:
Python `set(class_content)`. -/
def charSet (cs : List Char) : List Char :=
  cs.foldr insertChar []

/-- Python `{str(i) for i in range(int(a), int(b) + 1)}` for digit characters
`a`, `b` (empty when `a > b`), in canonical sorted form. -/
def digitRangeSet (a b : Char) : List Char :=
  ((List.range 10).filter fun d => a.toNat - 48 ≤ d ∧ d ≤ b.toNat - 48).map
    fun d => Char.ofNat (48 + d)

/-- Set intersection on canonical sorted duplicate-free lists. -/
def setInter (a b : List Char) : List Char := a.filter (· ∈ b)

/-- Python `a.issubset(b)`. -/
def setSubset (a b : List Char) : Bool := a.all (· ∈ b)

/-- Python `repr` of a sorted list of one-character strings, e.g.
the `['1', '2']` rendered into the conflict message. -/
def pyReprCharList (cs : List Char) : String :=
  "[" ++ String.intercalate ", " (cs.map fun c => sq ++ c.toString ++ sq) ++ "]"

/-- `extract_uuid_version_set`: extract the version character set from the
third hyphen-delimited group of a UUID-shaped pattern, `none` when the
pattern is not of the recognized shape.  A returned set is canonical
(sorted, duplicate-free), matching Python set semantics up to representation. -/
def extract_uuid_version_set (pattern : String) : Option (List Char) :=
  let clean := (pyRstrip (pyLstrip pattern ['^']) ['$']).toList
  let hyphens := topHyphenPositions clean
  if h : hyphens.length = 4 then
    let start := hyphens[1] + 1
    let stop := hyphens[2]
    let thirdGroup := (clean.drop start).take (stop - start)
    match thirdGroup with
    | '[' :: afterBracket =>
      match (List.findIdx? (· = ']') afterBracket) with
      | none => none
      | some close =>
        let classContent := afterBracket.take close
        if classContent.length = 3 ∧ classContent[1]? = some '-' then
          match classContent with
          | [a, _, b] =>
            if a.isDigit ∧ b.isDigit then some (digitRangeSet a b)
            else if classContent.all Char.isDigit then some (charSet classContent)
            else if mem09af classContent then none
            else none
          | _ => none
        else if classContent.all Char.isDigit then some (charSet classContent)
        else if mem09af classContent then none
        else none
    | c :: _ => if c.isDigit then some [c] else none
    | [] => none
  else none
where
  /-- membership test against the three literal hex classes -/
  mem09af (cs : List Char) : Bool :=
    let s := String.mk cs
    s = "0-9a-f" ∨ s = "a-f0-9" ∨ s = "0-9a-fA-F"

/-- The `ValueError` message raised on an empty UUID version intersection
(both version sets rendered in Python sorted-list form). -/
def uuidConflictMsg (json_pointer : String) (v1 v2 : List Char) : String :=
  "UUID pattern conflict at " ++ json_pointer ++ ":\n  Base allows versions: " ++
    pyReprCharList v1 ++ "\n  Refinement requires: " ++ pyReprCharList v2 ++
    "\n  Intersection: empty (unsatisfiable)\n  Example: Cannot refine UUID v1-5 to require v7"

/-- `try_uuid_pattern_specialization`: with exactly two recognized UUID
patterns, keep the more specific one; raise `ValueError` on an empty version
intersection.  Patterns are JSON values because the source collects them
untyped; a non-string pattern would hit `str.lstrip` and raise
`AttributeError`. -/
def try_uuid_pattern_specialization (patterns : List JSON) (json_pointer : String) :
    Except PyExc (Option String) :=
  match patterns with
  | [p1j, p2j] =>
    match p1j, p2j with
    | .str p1, .str p2 =>
      match extract_uuid_version_set p1, extract_uuid_version_set p2 with
      | some v1, some v2 =>
        if setInter v1 v2 = [] then
          .error (.valueError (uuidConflictMsg json_pointer v1 v2))
        else if setSubset v2 v1 ∧ v2 ≠ v1 then .ok (some p2)
        else if setSubset v1 v2 ∧ v1 ≠ v2 then .ok (some p1)
        else .ok (some p1)
      | _, _ => .ok none
    | _, _ => .error (.attributeError "lstrip: pattern is not a string")
  | _ => .ok none

/-! ## Constraint merging -/

/-- `[b[key] for b in branches if key in b]`.  A non-dict branch is modeled
as keyless (resolved allOf branches are schema dicts in every reachable
configuration; Python `in` on a non-dict would raise or do membership). -/
def collectVals (branches : List JSON) (key : String) : List JSON :=
  branches.foldr (fun b acc => match b.get? key with | some v => v :: acc | none => acc) []

/-- A constraint value under a bare Python comparison; constraint values are
numbers (a non-number would raise `TypeError` in the comparison). -/
def asConstraintNum : JSON → Except PyExc Int
  | .num n => .ok n
  | _ => .error (.typeError "unsupported operand type for comparison")

/-- Python `max` over collected constraint values. -/
def pyMaxNums : List JSON → Except PyExc Int
  | [] => .error (.valueError "max() arg is an empty sequence")
  | v :: rest => do
    go (← asConstraintNum v) rest
where
  go (acc : Int) : List JSON → Except PyExc Int
    | [] => .ok acc
    | w :: ws => do go (max acc (← asConstraintNum w)) ws

/-- Python `min` over collected constraint values. -/
def pyMinNums : List JSON → Except PyExc Int
  | [] => .error (.valueError "min() arg is an empty sequence")
  | v :: rest => do
    go (← asConstraintNum v) rest
where
  go (acc : Int) : List JSON → Except PyExc Int
    | [] => .ok acc
    | w :: ws => do go (min acc (← asConstraintNum w)) ws

/-- Dict assignment on a JSON object node. -/
def JSON.set (j : JSON) (k : String) (v : JSON) : JSON :=
  match j with
  | .obj kvs => .obj (assocSet kvs k v)
  | other => other

/-- Insert a string into a sorted duplicate-free list. -/
def insertStr (s : String) : List String → List String
  | [] => [s]
  | t :: rest =>
    if s = t then t :: rest
    else if s < t then s :: t :: rest
    else t :: insertStr s rest

/-- Canonical (sorted, duplicate-free) model of `set(b["enum"])`.  Enum
members are strings here (the classifier only aliases string enums; Python
would accept any hashables but `sorted` over mixed types raises). -/
def strSetOf (vs : List JSON) : Except PyExc (List String) :=
  vs.foldrM
    (fun v acc =>
      match v with
      | .str s => .ok (insertStr s acc)
      | _ => .error (.typeError "unorderable enum member"))
    []

/-- Intersection of canonical string sets. -/
def strSetInter (a b : List String) : List String := a.filter (· ∈ b)

/-- Python `repr` of a list of lists of strings (the enum-conflict message). -/
def pyReprStrLists (ls : List (List String)) : String :=
  "[" ++ String.intercalate ", "
    (ls.map fun l =>
      "[" ++ String.intercalate ", " (l.map fun s => sq ++ s ++ sq) ++ "]") ++ "]"

/-- The pattern-merging stage of `merge_constraints` (specialization
preferred, `_validator_patterns` fallback, lenient warning on conflict). -/
def mergePatterns (merged : JSON) (patterns : List JSON) (json_pointer : String)
    (strict : Bool) : Except PyExc (JSON × List String) :=
  if patterns.isEmpty then .ok (merged, [])
  else
    match try_uuid_pattern_specialization patterns json_pointer with
    | .ok (some specialized) => .ok (merged.set "pattern" (.str specialized), [])
    | .ok none =>
      .ok ((merged.set "_validator_patterns" (.arr patterns)).set "pattern"
        (patterns.headD .null), [])
    | .error (.valueError e) =>
      if strict then .error (.valueError e)
      else
        .ok (merged.set "pattern" (patterns.headD .null),
          ["Pattern conflict (lenient mode): " ++ e])
    | .error e => .error e

/-- `if mins: merged[lo] = max(mins)` — half of a min/max merging block. -/
def setLoStep (merged : JSON) (los : List JSON) (loKey : String) : Except PyExc JSON :=
  if los.isEmpty then .ok merged
  else
    match pyMaxNums los with
    | .error e => .error e
    | .ok n => .ok (merged.set loKey (.num n))

/-- `if maxes: merged[hi] = min(maxes)` — the other half. -/
def setHiStep (m1 : JSON) (his : List JSON) (hiKey : String) : Except PyExc JSON :=
  if his.isEmpty then .ok m1
  else
    match pyMinNums his with
    | .error e => .error e
    | .ok n => .ok (m1.set hiKey (.num n))

/-- One max-of-los / min-of-his merging block of `merge_constraints` (the
source repeats this block verbatim for minLength/maxLength and for
minimum/maximum). -/
def mergeMinMaxPair (merged : JSON) (branches : List JSON) (loKey hiKey : String) :
    Except PyExc JSON :=
  match setLoStep merged (collectVals branches loKey) loKey with
  | .error e => .error e
  | .ok m1 => setHiStep m1 (collectVals branches hiKey) hiKey

/-- The length-merging stage of `merge_constraints`:
minLength → max of mins, maxLength → min of maxes. -/
def mergeLengths (merged : JSON) (branches : List JSON) : Except PyExc JSON :=
  mergeMinMaxPair merged branches "minLength" "maxLength"

/-- The bounds-merging stage of `merge_constraints`:
minimum → max of minimums, maximum → min of maximums. -/
def mergeBounds (merged : JSON) (branches : List JSON) : Except PyExc JSON :=
  mergeMinMaxPair merged branches "minimum" "maximum"

/-- The enum-merging stage of `merge_constraints`: intersection of all branch
enum sets; empty intersection raises (strict) or warns and keeps the first
branch's enum (lenient). -/
def mergeEnums (merged : JSON) (branches : List JSON) (strict : Bool) :
    Except PyExc (JSON × List String) :=
  let enumLists := collectVals branches "enum"
  if enumLists.isEmpty then .ok (merged, [])
  else
    match enumLists.mapM fun e =>
      match e with
      | .arr vs => strSetOf vs
      | _ => Except.error (.typeError "enum is not iterable") with
    | .error e => .error e
    | .ok enums =>
      let intersection := (enums.headD []).filter fun s => enums.all (s ∈ ·)
      if intersection.isEmpty then
        let msg := "allOf enum intersection is empty (unsatisfiable).\nBranch enums: " ++
          pyReprStrLists enums
        if strict then .error (.valueError msg)
        else .ok (merged.set "enum" (.arr ((enums.headD []).map JSON.str)), [msg])
      else
        .ok (merged.set "enum" (.arr (intersection.map JSON.str)), [])

/-- The format stage of `merge_constraints`: first branch's format wins. -/
def mergeFormat (merged : JSON) (branches : List JSON) : JSON :=
  match branches.find? (·.hasKey "format") with
  | some b => merged.set "format" ((b.get? "format").getD .null)
  | none => merged

/-- `merge_constraints`: merge allOf branches into one constrained scalar
schema.  Returns the merged node together with the `warnings.warn` messages
emitted on the way (lenient mode). -/
def merge_constraints (branches : List JSON) (scalar_type : String) (json_pointer : String)
    (strict : Bool) : Except PyExc (JSON × List String) :=
  match mergePatterns (.obj [("type", .str scalar_type)]) (collectVals branches "pattern")
      json_pointer strict with
  | .error e => .error e
  | .ok (m1, w1) =>
    match mergeLengths m1 branches with
    | .error e => .error e
    | .ok m2 =>
      match mergeBounds m2 branches with
      | .error e => .error e
      | .ok m3 =>
        match mergeEnums m3 branches strict with
        | .error e => .error e
        | .ok (m4, w2) => .ok (mergeFormat m4 branches, w1 ++ w2)

/-- Whether a JSON value is an object node. -/
def JSON.isObj : JSON → Bool
  | .obj _ => true
  | _ => false

/-- Python `max(x :: xs)`. -/
def intMax (a : Int) (as : List Int) : Int := as.foldl max a

/-- Python `min(x :: xs)`. -/
def intMin (a : Int) (as : List Int) : Int := as.foldl min a

/-- One impossible-pair check of `validate_satisfiability` (`strictCmp` makes
the comparison `>=`, as for the exclusive bounds). -/
def boundErrors (schema : JSON) (loKey hiKey : String) (strictCmp : Bool) (noun : String) :
    Except PyExc (List String) :=
  match schema.get? loKey, schema.get? hiKey with
  | some a, some b =>
    match asConstraintNum a, asConstraintNum b with
    | .ok x, .ok y =>
      if (if strictCmp then x ≥ y else x > y) then
        .ok [loKey ++ "=" ++ toString x ++ (if strictCmp then " >= " else " > ") ++ hiKey ++
          "=" ++ toString y ++ "\n  No " ++ noun ++ " can satisfy both constraints"]
      else .ok []
    | .error e, _ => .error e
    | _, .error e => .error e
  | _, _ => .ok []

/-- `validate_satisfiability`: check the merged node for impossible
constraint combinations; `ValueError` in strict mode, a warning in lenient
mode.  Returns the warnings emitted. -/
def validate_satisfiability (schema : JSON) (json_pointer : String) (strict : Bool) :
    Except PyExc (List String) :=
  match boundErrors schema "minLength" "maxLength" false "string",
      boundErrors schema "minimum" "maximum" false "number",
      boundErrors schema "exclusiveMinimum" "exclusiveMaximum" true "number" with
  | .error e, _, _ => .error e
  | _, .error e, _ => .error e
  | _, _, .error e => .error e
  | .ok e1, .ok e2, .ok e3 =>
    let errors := e1 ++ e2 ++ e3
    if errors.isEmpty then .ok []
    else
      let msg := "Impossible constraints at " ++ json_pointer ++ ":\n  " ++
        String.intercalate "\n  " errors
      if strict then .error (.valueError msg) else .ok [msg]

/-- `validate_scalar_types`: all branches must share one scalar type, which
is returned.  Rendered set contents in the messages are shown in a fixed
order (Python renders `set` nondeterministically; no claim inspects these
messages). -/
def validate_scalar_types (branches : List JSON) (json_pointer : String) :
    Except PyExc String := do
  let mut types_seen : List String := []
  let mut i : Nat := 0
  for b in branches do
    match b.get? "type" with
    | some t =>
      match t with
      | .str s =>
        if s ∈ ["string", "number", "integer", "boolean"] then
          if s ∉ types_seen then
            types_seen := types_seen ++ [s]
        else
          throw (.valueError ("Branch " ++ toString i ++ " has non-scalar type " ++ sq ++ s ++
            sq ++ " in allOf.\nallOf refinement only works with scalar types: " ++
            "(string, number, integer, boolean)"))
      | _ =>
        throw (.valueError ("Branch " ++ toString i ++ " has non-scalar type in allOf.\n" ++
          "allOf refinement only works with scalar types: (string, number, integer, boolean)"))
    | none => pure ()
    i := i + 1
  match types_seen with
  | [] =>
    throw (.valueError ("allOf at " ++ json_pointer ++ " has no type information.\n" ++
      "Cannot determine if scalar refinement is applicable."))
  | [t] => return t
  | _ =>
    throw (.valueError ("allOf at " ++ json_pointer ++ " mixes incompatible scalar types\n" ++
      "All branches must have the same type for refinement."))

/-! ## Python string helpers -/

/-- Python `s.replace(pat, rep)` for a non-empty pattern: replace every
non-overlapping occurrence left to right.  The fuel argument of the scan
starts at the character count; every step consumes at least one character,
so it never runs out. -/
def pyReplace (s pat rep : String) : String :=
  String.mk (go s.toList.length s.toList)
where
  go : Nat → List Char → List Char
    | 0, _ => []
    | _ + 1, [] => []
    | fuel + 1, c :: rest =>
      if pat.toList ≠ [] ∧ pat.toList.isPrefixOf (c :: rest) then
        rep.toList ++ go fuel ((c :: rest).drop pat.toList.length)
      else
        c :: go fuel rest

/-- Lexicographic code-point comparison of character lists: Python `<` on
`str` (and Lean `<` on `String`). -/
def charListLt : List Char → List Char → Bool
  | _, [] => false
  | [], _ :: _ => true
  | a :: as, b :: bs =>
    if a.toNat < b.toNat then true
    else if a.toNat = b.toNat then charListLt as bs
    else false

/-- Python `a < b` on strings. -/
def strLt (a b : String) : Bool := charListLt a.toList b.toList

/-- Python `s.startswith(p)`. -/
def pyStartsWith (s p : String) : Bool := p.toList.isPrefixOf s.toList

/-- Python `s.endswith(p)`. -/
def pyEndsWith (s p : String) : Bool := p.toList.isSuffixOf s.toList

/-- `str.lower` restricted to ASCII, which is all the URL code applies it
to (scheme names). -/
def strToLower (s : String) : String := String.mk (s.toList.map Char.toLower)

/-- The scan of `pySplitOn`: split at every non-overlapping occurrence of
`sep`, left to right.  Each step consumes at least one character, so fuel
equal to the character count never runs out. -/
def splitChars (sep : List Char) : Nat → List Char → List Char → List (List Char)
  | 0, acc, _ => [acc.reverse]
  | _ + 1, acc, [] => [acc.reverse]
  | fuel + 1, acc, c :: rest =>
    if sep.isPrefixOf (c :: rest) then
      acc.reverse :: splitChars sep fuel [] ((c :: rest).drop sep.length)
    else splitChars sep fuel (c :: acc) rest

/-- Python `s.split(sep)` for a non-empty separator. -/
def pySplitOn (s sep : String) : List String :=
  if sep = "" then [s]
  else (splitChars sep.toList s.toList.length [] s.toList).map String.mk

/-- Python `s.split(sep, 1)` for a one-character separator that occurs in
`s`: the text before the first occurrence and everything after it. -/
def splitFirst (s : String) (sep : Char) : String × String :=
  let pre := s.toList.takeWhile (· ≠ sep)
  (String.mk pre, String.mk (s.toList.drop (pre.length + 1)))

/-- Python `c in s`. -/
def strContainsChar (s : String) (c : Char) : Bool := s.toList.any (· = c)

/-- Size bound for recursing into a value found by dict lookup. -/
theorem sizeOf_assocGet_lt {kvs : List (String × JSON)} {k : String} {v : JSON}
    (h : assocGet kvs k = some v) : sizeOf v < sizeOf kvs := by
  induction kvs with
  | nil => cases h
  | cons p rest ih =>
    obtain ⟨a, b⟩ := p
    by_cases ha : a = k
    · simp only [assocGet, if_pos ha] at h
      cases h
      have : sizeOf (a, v) ≤ sizeOf ((a, v) :: rest) := by
        simp only [List.cons.sizeOf_spec]
        omega
      simp only [Prod.mk.sizeOf_spec] at this ⊢
      simp only [List.cons.sizeOf_spec, Prod.mk.sizeOf_spec]
      omega
    · simp only [assocGet, if_neg ha] at h
      have := ih h
      simp only [List.cons.sizeOf_spec]
      omega

/-- Size bound for recursing into a child found by `node.get?`. -/
theorem sizeOf_get?_lt {node v : JSON} {k : String} (h : node.get? k = some v) :
    sizeOf v < sizeOf node := by
  cases node with
  | obj kvs =>
    simp only [JSON.get?] at h
    have := sizeOf_assocGet_lt h
    simp only [JSON.obj.sizeOf_spec]
    omega
  | null => cases h
  | bool b => cases h
  | num n => cases h
  | str s => cases h
  | arr xs => cases h

/-- Size bound for the key-value list of an object child. -/
theorem sizeOf_get?_obj_lt {node : JSON} {k : String} {kvs : List (String × JSON)}
    (h : node.get? k = some (.obj kvs)) : sizeOf kvs < sizeOf node := by
  have := sizeOf_get?_lt h
  simp only [JSON.obj.sizeOf_spec] at this
  omega

/-- Size bound for an object child expressed on its raw size. -/
theorem sizeOf_get?_objNode_lt {node : JSON} {k : String} {kvs : List (String × JSON)}
    (h : node.get? k = some (.obj kvs)) : 1 + sizeOf kvs < sizeOf node := by
  have := sizeOf_get?_lt h
  simpa [JSON.obj.sizeOf_spec] using this

/-- Size bound for the element list of an array child. -/
theorem sizeOf_get?_arr_lt {node : JSON} {k : String} {xs : List JSON}
    (h : node.get? k = some (.arr xs)) : sizeOf xs < sizeOf node := by
  have := sizeOf_get?_lt h
  simp only [JSON.arr.sizeOf_spec] at this
  omega

/-- Python `s.find(c)`: first index or none (`-1`). -/
def findCharIdx (s : String) (c : Char) : Option Nat :=
  List.findIdx? (· = c) s.toList

/-- Python `s.rfind(c)`: last index or none. -/
def rfindCharIdx (s : String) (c : Char) : Option Nat :=
  match List.findIdx? (· = c) s.toList.reverse with
  | none => none
  | some i => some (s.length - 1 - i)

/-- Python `s.find(c, start)`: first index at or after `start`, or none. -/
def findCharIdxFrom (s : String) (c : Char) (start : Nat) : Option Nat :=
  match List.findIdx? (· = c) (s.toList.drop start) with
  | none => none
  | some i => some (start + i)

/-- Character slice `s[a:b]`. -/
def strSlice (s : String) (a b : Nat) : String :=
  String.mk ((s.toList.drop a).take (b - a))

/-- Character suffix `s[a:]`. -/
def strFrom (s : String) (a : Nat) : String :=
  String.mk (s.toList.drop a)

/-- Python `int(tok)` (as used on JSON-Pointer array indices): optional
whitespace, an optional sign, digits with single underscores between them. -/
def pyInt (s : String) : Except PyExc Int :=
  let cs := s.toList.dropWhile (· = ' ')
  let cs := (cs.reverse.dropWhile (· = ' ')).reverse
  let (neg, digits) :=
    match cs with
    | '-' :: rest => (true, rest)
    | '+' :: rest => (false, rest)
    | rest => (false, rest)
  if digitsOk digits then
    let n : Nat := (digits.filter Char.isDigit).foldl (fun acc c => acc * 10 + (c.toNat - 48)) 0
    .ok (if neg then -(n : Int) else (n : Int))
  else
    .error (.valueError ("invalid literal for int() with base 10: " ++ s))
where
  /-- nonempty, starts and ends with a digit, underscores single and between digits -/
  digitsOk (ds : List Char) : Bool :=
    match ds with
    | [] => false
    | d :: _ =>
      d.isDigit && (match ds.reverse with | e :: _ => e.isDigit | [] => false) &&
      pairsOk ds
  /-- no two adjacent non-digits -/
  pairsOk : List Char → Bool
    | a :: b :: rest =>
      (a.isDigit ∨ a = Char.ofNat 95) && (a.isDigit ∨ b.isDigit) && pairsOk (b :: rest)
    | [a] => a.isDigit ∨ a = Char.ofNat 95
    | [] => true

/-! ## urllib.parse model (transcribed from CPython) -/

/-- `urllib.parse.uses_relative`. -/
def usesRelative : List String :=
  ["", "ftp", "http", "gopher", "nntp", "imap", "wais", "file", "https", "shttp", "mms",
   "prospero", "rtsp", "rtsps", "rtspu", "sftp", "svn", "svn+ssh", "ws", "wss"]

/-- `urllib.parse.uses_netloc`. -/
def usesNetloc : List String :=
  ["", "ftp", "http", "gopher", "nntp", "telnet", "imap", "wais", "file", "mms", "https",
   "shttp", "snews", "prospero", "rtsp", "rtsps", "rtspu", "rsync", "svn", "svn+ssh",
   "sftp", "nfs", "git", "git+ssh", "ws", "wss"]

/-- `urllib.parse.uses_params`. -/
def usesParams : List String :=
  ["", "ftp", "hdl", "prospero", "http", "imap", "https", "shttp", "rtsp", "rtsps",
   "rtspu", "sip", "sips", "mms", "sftp", "tel"]

/-- `scheme_chars`. -/
def isSchemeChar (c : Char) : Bool :=
  c.isAlpha || c.isDigit || c = '+' || c = '-' || c = '.'

/-- The six URL components of `urlparse`. -/
structure UrlParts where
  scheme : String
  netloc : String
  path : String
  params : String
  query : String
  fragment : String
deriving DecidableEq, Repr

/-- `url[0].isascii() and url[0].isalpha()` (inputs are ASCII). -/
def headIsAlpha (s : String) : Bool :=
  match s.toList.head? with
  | some c => c.isAlpha
  | none => false

/-- `_splitnetloc(url, 2)`: netloc runs to the next `/`, `?` or `#`. -/
def pySplitNetloc (url : String) : String × String :=
  let rest := url.toList.drop 2
  let netloc := rest.takeWhile fun c => c ≠ '/' ∧ c ≠ '?' ∧ c ≠ '#'
  (String.mk netloc, String.mk (rest.drop netloc.length))

/-- `urlsplit(url, scheme)` with `allow_fragments=True` (the WHATWG
control-character stripping is omitted: no input here contains control
characters, tabs or newlines). -/
def pyUrlsplit (url scheme0 : String) : String × String × String × String × String :=
  let (scheme, url) :=
    match findCharIdx url ':' with
    | some i =>
      if 0 < i ∧ headIsAlpha url ∧ (url.toList.take i).all isSchemeChar then
        (strToLower (strSlice url 0 i), strFrom url (i + 1))
      else (scheme0, url)
    | none => (scheme0, url)
  let (netloc, url) :=
    if pyStartsWith url "//" then pySplitNetloc url else ("", url)
  let (url, fragment) :=
    if strContainsChar url '#' then splitFirst url '#' else (url, "")
  let (url, query) :=
    if strContainsChar url '?' then splitFirst url '?' else (url, "")
  (scheme, netloc, url, query, fragment)

/-- `_splitparams(url)`. -/
def pySplitParams (url : String) : String × String :=
  let i :=
    if strContainsChar url '/' then
      findCharIdxFrom url ';' ((rfindCharIdx url '/').getD 0)
    else findCharIdx url ';'
  match i with
  | none => (url, "")
  | some i => (strSlice url 0 i, strFrom url (i + 1))

/-- `urlparse(url, scheme)`. -/
def pyUrlparse (url scheme0 : String) : UrlParts :=
  let (scheme, netloc, path, query, fragment) := pyUrlsplit url scheme0
  let (path, params) :=
    if scheme ∈ usesParams ∧ strContainsChar path ';' then pySplitParams path
    else (path, "")
  ⟨scheme, netloc, path, params, query, fragment⟩

/-- `urlunsplit`. -/
def pyUrlunsplit (scheme netloc url query fragment : String) : String :=
  let url :=
    if netloc ≠ "" ∨ (scheme ≠ "" ∧ scheme ∈ usesNetloc ∧ ¬pyStartsWith url "//") then
      "//" ++ netloc ++ (if url ≠ "" ∧ ¬pyStartsWith url "/" then "/" ++ url else url)
    else url
  let url := if scheme ≠ "" then scheme ++ ":" ++ url else url
  let url := if query ≠ "" then url ++ "?" ++ query else url
  if fragment ≠ "" then url ++ "#" ++ fragment else url

/-- `urlunparse`. -/
def pyUrlunparse (p : UrlParts) : String :=
  let url := if p.params ≠ "" then p.path ++ ";" ++ p.params else p.path
  pyUrlunsplit p.scheme p.netloc url p.query p.fragment

/-- The dot-segment resolution loop of `urljoin`. -/
def resolveDotSegments (segments : List String) : List String :=
  let resolved := segments.foldl
    (fun acc seg =>
      if seg = ".." then acc.dropLast
      else if seg = "." then acc
      else acc ++ [seg])
    []
  match segments.getLast? with
  | some last => if last = "." ∨ last = ".." then resolved ++ [""] else resolved
  | none => resolved

/-- `urljoin(base, url)` with `allow_fragments=True`. -/
def pyUrljoin (base url : String) : String :=
  if base = "" then url
  else if url = "" then base
  else
    let bp := pyUrlparse base ""
    let up := pyUrlparse url bp.scheme
    if up.scheme ≠ bp.scheme ∨ up.scheme ∉ usesRelative then url
    else
      let netloc0 := up.netloc
      if up.scheme ∈ usesNetloc ∧ netloc0 ≠ "" then
        pyUrlunparse ⟨up.scheme, netloc0, up.path, up.params, up.query, up.fragment⟩
      else
        let netloc := if up.scheme ∈ usesNetloc then bp.netloc else netloc0
        if up.path = "" ∧ up.params = "" then
          let query := if up.query = "" then bp.query else up.query
          pyUrlunparse ⟨up.scheme, netloc, bp.path, bp.params, query, up.fragment⟩
        else
          let baseParts :=
            let ps := pySplitOn bp.path "/"
            if ps.getLast? ≠ some "" then ps.dropLast else ps
          let segments :=
            if pyStartsWith up.path "/" then pySplitOn up.path "/"
            else
              let segs := baseParts ++ pySplitOn up.path "/"
              match segs with
              | first :: rest =>
                first :: (rest.dropLast.filter (· ≠ "")) ++
                  (match rest.getLast? with | some last => [last] | none => [])
              | [] => segs
          let resolvedPath := String.intercalate "/" (resolveDotSegments segments)
          let path := if resolvedPath = "" then "/" else resolvedPath
          pyUrlunparse ⟨up.scheme, netloc, path, up.params, up.query, up.fragment⟩

/-- `urldefrag(url)`: strip any fragment, returning (url, fragment). -/
def pyUrldefrag (url : String) : String × String :=
  if strContainsChar url '#' then
    let p := pyUrlparse url ""
    (pyUrlunparse ⟨p.scheme, p.netloc, p.path, p.params, p.query, ""⟩, p.fragment)
  else (url, "")

/-! ## JSON Pointer resolution (`slas_schema_index.py`) -/

/-- RFC 6901 token unescaping: `~1` → `/`, then `~0` → `~`. -/
def unescapePtrToken (t : String) : String :=
  pyReplace (pyReplace t "~1" "/") "~0" "~"

/-- RFC 6901 token escaping as done during indexing: `~` → `~0`, `/` → `~1`. -/
def escapePtrToken (n : String) : String :=
  pyReplace (pyReplace n "~" "~0") "/" "~1"

/-- The address of a node: originating file name plus the raw key/index path
from that file's root.  This is the model of CPython object identity
(`id(node)`): `json.loads` never shares substructure, so two nodes of the
index are the same Python object exactly when their addresses agree. -/
abbrev Addr := String × List String

/-- The traversal loop of `resolve_pointer`, threading the node address.
Raises `ValueError` from `int()` on a non-integer token against a list,
`IndexError` out of range, `KeyError` for missing keys or non-containers. -/
def resolvePointerSteps : JSON → List String → List String → Except PyExc (JSON × List String)
  | cur, path, [] => .ok (cur, path)
  | cur, path, raw :: rest =>
    let tok := unescapePtrToken raw
    match cur with
    | .arr xs =>
      (match pyInt tok with
       | .error e => .error e
       | .ok idx =>
         let i : Int := if idx < 0 then idx + xs.length else idx
         if i < 0 then .error (.indexError "list index out of range")
         else
           match xs.get? i.toNat with
           | some v => resolvePointerSteps v (path ++ [toString i.toNat]) rest
           | none => .error (.indexError "list index out of range"))
    | .obj kvs =>
      (match assocGet kvs tok with
       | some v => resolvePointerSteps v (path ++ [tok]) rest
       | none => .error (.keyError tok))
    | _ => .error (.keyError ("Cannot dereference " ++ sq ++ tok ++ sq ++ " in non-container"))

/-- Token list of a pointer string, after the `#`/leading-slash
normalization of `resolve_pointer`. -/
def pointerParts (pointer : String) : List String :=
  let p := if pyStartsWith pointer "#" then strFrom pointer 1 else pointer
  if pyStartsWith p "/" then (pySplitOn p "/").drop 1 else pySplitOn p "/"

/-- `resolve_pointer` with address threading (`addr` is the address of
`doc`); used by `node_for`'s raw-traversal fallback. -/
def resolvePointerAddr (doc : JSON) (addr : Addr) (pointer : String) :
    Except PyExc (JSON × Addr) :=
  if pointer = "" ∨ pointer = "#" then .ok (doc, addr)
  else
    match resolvePointerSteps doc addr.2 (pointerParts pointer) with
    | .ok (v, path) => .ok (v, (addr.1, path))
    | .error e => .error e

/-- `resolve_pointer(doc, pointer)`: RFC 6901 JSON Pointer resolution with
`~0`/`~1` unescaping and array/object traversal. -/
def resolve_pointer (doc : JSON) (pointer : String) : Except PyExc JSON :=
  (resolvePointerAddr doc ("", []) pointer).map (·.1)

/-- `resolve_uri(base, ref)`: (absolute URI without fragment, `"#"+fragment`
or `""`). -/
def resolve_uri (base ref : String) : String × String :=
  let (nofrag, frag) := pyUrldefrag (pyUrljoin base ref)
  (nofrag, if frag ≠ "" then "#" ++ frag else "")

/-! ## SchemaIndex (`slas_schema_index.py`) -/

/-- `NodeId`: a document URI plus an optional fragment. -/
structure NodeId where
  docUri : String
  fragment : String := ""
deriving DecidableEq

/-- `NodeId.uri`. -/
def NodeId.uri (n : NodeId) : String := n.docUri ++ n.fragment

/-- The schema index.  Python dicts keyed by `id(node)` are keyed by `Addr`
here; dict entries holding node object references hold (node value, address)
pairs. -/
structure SIndex where
  docs : List (String × (JSON × Addr)) := []
  anchors : List (String × (JSON × Addr)) := []
  pointers : List (String × (JSON × Addr)) := []
  subschemaBases : List (Addr × String) := []
  originFiles : List (String × String) := []
  classNameOverrides : List (String × String) := []
  baseUrl : Option String := none
deriving DecidableEq

/-- `extract_class_name_override`. -/
def extract_class_name_override (schema : JSON) : Option JSON :=
  schema.get? "x-python-class-name"

/-- The Python keyword list (`keyword.iskeyword`). -/
def pyKeywordList : List String :=
  ["False", "None", "True", "and", "as", "assert", "async", "await", "break", "class",
   "continue", "def", "del", "elif", "else", "except", "finally", "for", "from", "global",
   "if", "import", "in", "is", "lambda", "nonlocal", "not", "or", "pass", "raise",
   "return", "try", "while", "with", "yield"]

/-- `str.isidentifier` restricted to ASCII (all names in this development are
ASCII; Python also admits non-ASCII identifier characters). -/
def pyIsIdentifier (s : String) : Bool :=
  match s.toList with
  | [] => false
  | c :: rest => (c.isAlpha ∨ c = '_') ∧ rest.all fun d => d.isAlphanum ∨ d = '_'

/-- `validate_class_name_override` (`validation.py`): empty, non-identifier,
leading-underscore and keyword names are rejected with `ValueError`. -/
def validate_class_name_override (name : String) (schemaPath : String) : Except PyExc Unit :=
  if name = "" then
    .error (.valueError (schemaPath ++ ": x-python-class-name cannot be empty"))
  else if ¬pyIsIdentifier name then
    .error (.valueError (schemaPath ++ ": x-python-class-name " ++ sq ++ name ++ sq ++
      " is not a valid Python identifier"))
  else if pyStartsWith name "_" then
    .error (.valueError (schemaPath ++ ": x-python-class-name " ++ sq ++ name ++ sq ++
      " should not start with underscore"))
  else if name ∈ pyKeywordList then
    .error (.valueError (schemaPath ++ ": x-python-class-name " ++ sq ++ name ++ sq ++
      " is a Python keyword"))
  else .ok ()

/-- The title/override registration step at the top of `_index_tree`.  A
rejected override prints and raises `typer.Exit` (modeled as `exitApp`);  a
truthy non-string override would crash in `str.isidentifier`
(`AttributeError`).  Titles are strings in every reachable document (a
non-string dict key has no model here and is reported as a `TypeError`). -/
def titleStep (node : JSON) (docUri : String) (st : SIndex) : Except PyExc SIndex :=
  if node.hasKey "title" then
    match extract_class_name_override node with
    | some ov =>
      if ov.truthy then
        match ov with
        | .str ovs =>
          ((match assocGet st.originFiles docUri with
            | some originFile =>
              (match validate_class_name_override ovs originFile with
               | .error (.valueError msg) => .error (.exitApp msg)
               | .error e => .error e
               | .ok _ => .ok ())
            | none => .ok ()) : Except PyExc Unit).map
            fun _ =>
              match node.get? "title" with
              | some (.str title) =>
                { st with classNameOverrides := assocSet st.classNameOverrides title ovs }
              | _ => st
        | _ => .error (.attributeError "isidentifier")
      else .ok st
    | none => .ok st
  else .ok st

/-- Registration of a nested `$id`, the node's base URI, its pointer and its
anchor — the straight-line middle of `_index_tree`. -/
def registerNode (fname docUri : String) (node : JSON) (baseUri : String)
    (rpath : List String) (pointer : String) (st : SIndex) :
    Except PyExc (String × SIndex) :=
  let idStep : Except PyExc (String × SIndex) :=
    if node.hasKey "$id" ∧ pointer ≠ "" then
      match node.get? "$id" with
      | some (.str idv) =>
        let nested := pyUrljoin baseUri idv
        .ok (nested, { st with docs := assocSet st.docs nested (node, (fname, rpath)) })
      | _ => .error (.typeError "urljoin: $id is not a string")
    else .ok (baseUri, st)
  match idStep with
  | .error e => .error e
  | .ok (baseUri, st) =>
    let st := { st with
      subschemaBases := assocSet st.subschemaBases (fname, rpath) baseUri }
    let st :=
      if pointer ≠ "" then
        { st with pointers :=
            (assocSet st.pointers (docUri ++ "#" ++ pointer) (node, (fname, rpath))) }
      else st
    match node.get? "$anchor" with
    | some (.str a) =>
      .ok (baseUri, { st with anchors :=
        (assocSet st.anchors (docUri ++ "#" ++ a) (node, (fname, rpath))) })
    | some _ => .error (.typeError "can only concatenate str to str")
    | none => .ok (baseUri, st)

mutual

/-- `_index_tree`: walk a document registering base URIs, anchors and
pointer-addressed nodes.  Returns the updated index, or the exception a
Python run would crash with.  `fuel` bounds the recursion depth (CPython
would raise `RecursionError` past its recursion limit); every caller passes
fuel far exceeding the walk depth of its document, so exhaustion is
unreachable on inputs Python can process. -/
def indexTree (fuel : Nat) (fname docUri : String) (node : JSON) (baseUri : String)
    (rpath : List String) (pointer : String) (st : SIndex) : Except PyExc SIndex :=
  match fuel with
  | 0 => .error .recursionError
  | fuel + 1 =>
    if node.isObj then
      (match titleStep node docUri st with
       | .error e => .error e
       | .ok st =>
        match registerNode fname docUri node baseUri rpath pointer st with
        | .error e => .error e
        | .ok (baseUri, st) =>
          let afterDefs : Except PyExc SIndex :=
            match node.get? "$defs" with
            | some (.obj dkvs) =>
              indexKvs fuel fname docUri dkvs baseUri rpath pointer "$defs" false st
            | some _ => .error (.attributeError "items")
            | none => .ok st
          match afterDefs with
          | .error e => .error e
          | .ok st =>
            let afterDefinitions : Except PyExc SIndex :=
              match node.get? "definitions" with
              | some (.obj dkvs) =>
                indexKvs fuel fname docUri dkvs baseUri rpath pointer "definitions" false st
              | some _ => .error (.attributeError "items")
              | none => .ok st
            match afterDefinitions with
            | .error e => .error e
            | .ok st =>
              let afterProps : Except PyExc SIndex :=
                match node.get? "properties" with
                | some (.obj dkvs) =>
                  indexKvs fuel fname docUri dkvs baseUri rpath pointer "properties" true st
                | some _ => .error (.attributeError "items")
                | none => .ok st
              match afterProps with
              | .error e => .error e
              | .ok st =>
                match indexSingles fuel fname docUri node baseUri rpath pointer
                    ["items", "prefixItems", "contains", "additionalProperties",
                     "if", "then", "else", "not"] st with
                | .error e => .error e
                | .ok st =>
                  indexCombiners fuel fname docUri node baseUri rpath pointer
                    ["allOf", "anyOf", "oneOf"] st)
    else .ok st
termination_by structural fuel

/-- Children of `$defs` / `definitions` / `properties` maps
(`escapeNames` only for properties, per the source). -/
def indexKvs (fuel : Nat) (fname docUri : String) (kvs : List (String × JSON))
    (baseUri : String) (rpath : List String) (pointer : String) (defKey : String)
    (escapeNames : Bool) (st : SIndex) : Except PyExc SIndex :=
  match fuel with
  | 0 => .error .recursionError
  | fuel + 1 =>
    match kvs with
    | [] => .ok st
    | (name, sub) :: rest =>
      let escaped := if escapeNames then escapePtrToken name else name
      match indexTree fuel fname docUri sub baseUri (rpath ++ [defKey, name])
          (pointer ++ "/" ++ defKey ++ "/" ++ escaped) st with
      | .error e => .error e
      | .ok st => indexKvs fuel fname docUri rest baseUri rpath pointer defKey escapeNames st
termination_by structural fuel

/-- The single-keyword child loop of `_index_tree`. -/
def indexSingles (fuel : Nat) (fname docUri : String) (node : JSON) (baseUri : String)
    (rpath : List String) (pointer : String) (keys : List String) (st : SIndex) :
    Except PyExc SIndex :=
  match fuel with
  | 0 => .error .recursionError
  | fuel + 1 =>
    match keys with
    | [] => .ok st
    | key :: rest =>
      let step : Except PyExc SIndex :=
        match node.get? key with
        | some v =>
          indexTree fuel fname docUri v baseUri (rpath ++ [key]) (pointer ++ "/" ++ key) st
        | none => .ok st
      match step with
      | .error e => .error e
      | .ok st => indexSingles fuel fname docUri node baseUri rpath pointer rest st
termination_by structural fuel

/-- The combination-keyword child loop (`allOf`/`anyOf`/`oneOf`). -/
def indexCombiners (fuel : Nat) (fname docUri : String) (node : JSON) (baseUri : String)
    (rpath : List String) (pointer : String) (keys : List String) (st : SIndex) :
    Except PyExc SIndex :=
  match fuel with
  | 0 => .error .recursionError
  | fuel + 1 =>
    match keys with
    | [] => .ok st
    | key :: rest =>
      let step : Except PyExc SIndex :=
        match node.get? key with
        | some (.arr xs) =>
          indexArr fuel fname docUri xs baseUri rpath pointer key 0 st
        | _ => .ok st
      match step with
      | .error e => .error e
      | .ok st => indexCombiners fuel fname docUri node baseUri rpath pointer rest st
termination_by structural fuel

/-- The enumerated branch loop of one combination keyword. -/
def indexArr (fuel : Nat) (fname docUri : String) (xs : List JSON) (baseUri : String)
    (rpath : List String) (pointer : String) (key : String) (i : Nat) (st : SIndex) :
    Except PyExc SIndex :=
  match fuel with
  | 0 => .error .recursionError
  | fuel + 1 =>
    match xs with
    | [] => .ok st
    | x :: rest =>
      match indexTree fuel fname docUri x baseUri (rpath ++ [key, toString i])
          (pointer ++ "/" ++ key ++ "/" ++ toString i) st with
      | .error e => .error e
      | .ok st => indexArr fuel fname docUri rest baseUri rpath pointer key (i + 1) st
termination_by structural fuel

end

/-- `Path.stem`: the file name minus its last suffix. -/
def extractStem (fileName : String) : String :=
  match rfindCharIdx fileName '.' with
  | some i => if 0 < i then strSlice fileName 0 i else fileName
  | none => fileName

/-- Stable insertion sort by file name (Python `sorted(paths)`). -/
def insertFileSorted (f : String × JSON) : List (String × JSON) → List (String × JSON)
  | [] => [f]
  | g :: rest => if strLt f.1 g.1 then f :: g :: rest else g :: insertFileSorted f rest

/-- Python `sorted` over (file name, document) pairs. -/
def sortFiles (files : List (String × JSON)) : List (String × JSON) :=
  files.foldr insertFileSorted []

/-- The per-file loop body of `SchemaIndex.load`; parse failures cannot
occur here because documents arrive parsed. -/
def loadFiles (baseUrl : Option String) :
    List (String × JSON) → SIndex → Except PyExc SIndex
  | [], st => .ok st
  | (name, doc) :: rest, st =>
    if ¬(pyEndsWith name ".json" ∧ 5 < name.length) then loadFiles baseUrl rest st
    else
      let docUriRes : Except PyExc String :=
        match doc.get? "$id" with
        | some (.str idv) => .ok idv
        | some _ => .error (.typeError "unsupported $id type")
        | none =>
          match baseUrl with
          | some b => .ok (pyUrljoin b name)
          | none => .ok ("lithify:///" ++ extractStem name ++ ".json")
      match docUriRes with
      | .error e => .error e
      | .ok docUri =>
        let st := { st with
          docs := assocSet st.docs docUri (doc, (name, [])),
          originFiles := assocSet st.originFiles docUri name }
        match indexTree (100 * (doc.size + 1)) name docUri doc docUri [] "" st with
        | .error e => .error e
        | .ok st => loadFiles baseUrl rest st

/-- `SchemaIndex.load`: index a sorted list of schema files. -/
def SIndex.load (files : List (String × JSON)) (baseUrl : Option String) :
    Except PyExc SIndex :=
  loadFiles baseUrl (sortFiles files) { baseUrl := baseUrl }

/-- `SchemaIndex.resolve_ref`: resolve a reference against a context
document URI, with the bespoke `lithify:///` joining. -/
def SIndex.resolve_ref (_ : SIndex) (ref context_doc_uri : String) : String :=
  if pyStartsWith context_doc_uri "lithify:///" then
    if pyStartsWith ref "#" ∨ pyStartsWith ref "http://" ∨ pyStartsWith ref "https://" ∨
        pyStartsWith ref "file://" ∨ pyStartsWith ref "lithify:///" then
      pyUrljoin context_doc_uri ref
    else
      let refPath := pyLstrip ref ['.', '/']
      if strContainsChar refPath '#' then
        let (path, fragment) := splitFirst refPath '#'
        "lithify:///" ++ path ++ "#" ++ fragment
      else "lithify:///" ++ refPath
  else pyUrljoin context_doc_uri ref

/-- `SchemaIndex.node_for`: split the fragment, prefer anchors, then
registered pointers, then raw JSON-Pointer traversal.  `KeyError`,
`IndexError` and `TypeError` from traversal become `None`; the `ValueError`
a non-integer list index raises propagates. -/
def SIndex.node_for (st : SIndex) (uri : String) : Except PyExc (Option (JSON × Addr)) :=
  let (docUri, fragment) :=
    if pyStartsWith uri "lithify:///" then
      if strContainsChar uri '#' then splitFirst uri '#' else (uri, "")
    else pyUrldefrag uri
  match assocGet st.docs docUri with
  | none => .ok none
  | some (doc, addr) =>
    if fragment = "" then .ok (some (doc, addr))
    else
      match assocGet st.anchors (docUri ++ "#" ++ fragment) with
      | some na => .ok (some na)
      | none =>
        if pyStartsWith fragment "/" then
          match assocGet st.pointers (docUri ++ "#" ++ fragment) with
          | some np => .ok (some np)
          | none =>
            match resolvePointerAddr doc addr fragment with
            | .ok r => .ok (some r)
            | .error (.keyError _) => .ok none
            | .error (.indexError _) => .ok none
            | .error (.typeError _) => .ok none
            | .error e => .error e
        else .ok none

mutual

/-- The recursive `$ref` collector of `refs_from` on a dict node. -/
def visitRefs (base : String) (j : JSON) : Except PyExc (List String) :=
  match j with
  | .obj kvs =>
    (match assocGet kvs "$ref" with
     | some (.str r) =>
       let (absUri, frag) := resolve_uri base r
       (visitRefsKvs base kvs).map fun rest => (absUri ++ frag) :: rest
     | some _ => .error (.typeError "urljoin: ref is not a string")
     | none => visitRefsKvs base kvs)
  | .arr xs => visitRefsArr base xs
  | _ => .ok []

def visitRefsKvs (base : String) (kvs : List (String × JSON)) : Except PyExc (List String) :=
  match kvs with
  | [] => .ok []
  | (_, v) :: rest =>
    match visitRefs base v with
    | .error e => .error e
    | .ok here =>
      (visitRefsKvs base rest).map fun more => here ++ more

def visitRefsArr (base : String) (xs : List JSON) : Except PyExc (List String) :=
  match xs with
  | [] => .ok []
  | v :: rest =>
    match visitRefs base v with
    | .error e => .error e
    | .ok here =>
      (visitRefsArr base rest).map fun more => here ++ more

end

/-- `SchemaIndex.refs_from`: all `$ref`s reachable from a node, resolved to
absolute URIs against the node's recorded base URI (falling back to the
NodeId's document URI). -/
def SIndex.refs_from (st : SIndex) (nid : NodeId) : Except PyExc (List String) :=
  match st.node_for nid.uri with
  | .error e => .error e
  | .ok none => .ok []
  | .ok (some (j, a)) =>
    if ¬j.truthy then .ok []
    else
      let base := (assocGet st.subschemaBases a).getD nid.docUri
      visitRefs base j

/-- `SchemaIndex.doc_uri_for_path`: reverse lookup from file name to the
document URI assigned at load time. -/
def SIndex.doc_uri_for_path (st : SIndex) (path : String) : Option String :=
  go st.originFiles
where
  go : List (String × String) → Option String
    | [] => none
    | (uri, p) :: rest => if p = path then some uri else go rest

/-- Python `str.isdigit` on ASCII (nonempty, all digits). -/
def pyIsDigitStr (s : String) : Bool :=
  s ≠ "" ∧ s.toList.all Char.isDigit

/-- The numbered-prefix stripping shared by `exportables` and
`_normalize_module_stem`: `"01_user"` → `"user"`. -/
def stripNumPrefix (stem : String) : String :=
  if strContainsChar stem '_' ∧ pyIsDigitStr (splitFirst stem '_').1 then
    (splitFirst stem '_').2
  else stem

/-- `SchemaIndex.exportables`: the document's title symbol plus one symbol
per `$defs`/`definitions` entry, with the origin module name.  A document
registered by a nested `$id` has no `origin_files` entry, so the subscript
raises `KeyError`, faithfully to the source.  Titles are strings in every
reachable document; `$defs` of a non-dict shape is reported as an error
(Python would iterate a list or string there). -/
def SIndex.exportables (st : SIndex) (docUri : String) :
    Except PyExc (List (NodeId × String × String)) :=
  match assocGet st.docs docUri with
  | none => .ok []
  | some (doc, _) =>
    match assocGet st.originFiles docUri with
    | none => .error (.keyError docUri)
    | some fileName =>
      let module_name := stripNumPrefix (extractStem fileName)
      let titleExports : Except PyExc (List (NodeId × String × String)) :=
        match doc.get? "title" with
        | some (.str title) => .ok [(⟨docUri, ""⟩, title, module_name)]
        | some _ => .error (.typeError "title is not a string")
        | none => .ok []
      match titleExports with
      | .error e => .error e
      | .ok titleList =>
        let defsExports : Except PyExc (List (NodeId × String × String)) :=
          match doc.get? "$defs" with
          | some (.obj kvs) =>
            .ok (kvs.map fun p => (⟨docUri, "#/$defs/" ++ p.1⟩, p.1, module_name))
          | some _ => .error (.typeError "$defs is not a dict")
          | none => .ok []
        match defsExports with
        | .error e => .error e
        | .ok defsList =>
          let definitionsExports : Except PyExc (List (NodeId × String × String)) :=
            match doc.get? "definitions" with
            | some (.obj kvs) =>
              .ok (kvs.map fun p => (⟨docUri, "#/definitions/" ++ p.1⟩, p.1, module_name))
            | some _ => .error (.typeError "definitions is not a dict")
            | none => .ok []
          match definitionsExports with
          | .error e => .error e
          | .ok definitionsList => .ok (titleList ++ defsList ++ definitionsList)

/-! ## allOf branch resolution (`slas_allof_processor.py`) -/

/-- The branch loop of `resolve_allof_branches`: resolve `$ref` branches via
the index, detect circular references by node identity (addresses). -/
def resolveAllofGo (index : SIndex) (doc_uri : String) :
    List JSON → Nat → List Addr → Except PyExc (List JSON)
  | [], _, _ => .ok []
  | branch :: rest, i, visited =>
    match branch.get? "$ref" with
    | some (.str ref_uri) =>
      let full_ref_uri := index.resolve_ref ref_uri doc_uri
      (match index.node_for full_ref_uri with
       | .error e => .error e
       | .ok none =>
         .error (.valueError ("Cannot resolve $ref in allOf[" ++ toString i ++ "]: " ++
           ref_uri))
       | .ok (some (node, addr)) =>
         if ¬node.truthy then
           .error (.valueError ("Cannot resolve $ref in allOf[" ++ toString i ++ "]: " ++
             ref_uri))
         else if addr ∈ visited then
           .error (.valueError ("Circular reference detected in allOf[" ++ toString i ++
             "]: " ++ ref_uri))
         else
           (resolveAllofGo index doc_uri rest (i + 1) (visited ++ [addr])).map (node :: ·))
    | some _ => .error (.typeError "ref is not a string")
    | none => (resolveAllofGo index doc_uri rest (i + 1) visited).map (branch :: ·)

/-- `resolve_allof_branches`: resolve all `$ref`s in the branches. -/
def resolve_allof_branches (branches : List JSON) (index : SIndex)
    (json_pointer doc_uri : String) : Except PyExc (List JSON) :=
  match resolveAllofGo index doc_uri branches 0 [] with
  | .error e => .error e
  | .ok resolved =>
    if resolved.isEmpty then
      .error (.valueError ("allOf has no resolvable branches at " ++ json_pointer))
    else .ok resolved

/-! ## The collapse pass (`process_allof_collapse`) -/

/-- `ValidationError`: structured error with file/pointer context. -/
structure ValidationError where
  file : String
  json_pointer : String
  message : String
deriving DecidableEq

/-- `ValidationError.__str__`. -/
def ValidationError.toStr (e : ValidationError) : String :=
  e.file ++ ":" ++ e.json_pointer ++ "\n  " ++ e.message

/-- `InlineAllOfInfo`: a collapsed inline property allOf. -/
structure InlineAllOfInfo where
  property_name : String
  parent_class : String
  merged_schema : JSON
  json_pointer : String
  origin_file : String
deriving DecidableEq

/-- Python `sub in s` (substring containment). -/
def strContainsSub (s sub : String) : Bool :=
  go s.toList
where
  go : List Char → Bool
    | [] => sub.toList.isPrefixOf []
    | c :: rest => sub.toList.isPrefixOf (c :: rest) ∨ go rest

/-- `_is_inline_property_allof`: untitled, under `/properties/`, with a
parent class. -/
def _is_inline_property_allof (node : JSON) (json_ptr : String)
    (parent_class : Option String) : Bool :=
  ¬node.hasKey "title" ∧ strContainsSub json_ptr "/properties/" ∧ parent_class.isSome

/-- `_extract_property_name`: the token after the last `properties` segment. -/
def _extract_property_name (json_pointer : String) : Except PyExc String :=
  let parts := pySplitOn json_pointer "/"
  match List.findIdx? (· = "properties") parts.reverse with
  | some j =>
    let lastIdx := parts.length - 1 - j
    (match parts.get? (lastIdx + 1) with
     | some name => .ok name
     | none =>
       .error (.valueError ("Cannot extract property name from JSON pointer: " ++
         json_pointer ++ "\nExpected format: .../properties/<property_name>/...")))
  | none =>
    .error (.valueError ("Cannot extract property name from JSON pointer: " ++
      json_pointer ++ "\nExpected format: .../properties/<property_name>/..."))

/-- Accumulated effects of walking one subtree in a collapse pass. -/
structure CollapseAcc where
  collapsed : Nat
  errors : List ValidationError
  inlines : List InlineAllOfInfo
  warns : List String
deriving DecidableEq

/-- The empty accumulator. -/
def CollapseAcc.empty : CollapseAcc := ⟨0, [], [], []⟩

/-- Concatenation of accumulators in walk order. -/
def CollapseAcc.append (a b : CollapseAcc) : CollapseAcc :=
  ⟨a.collapsed + b.collapsed, a.errors ++ b.errors, a.inlines ++ b.inlines,
   a.warns ++ b.warns⟩

/-- The try-block body of the per-node collapse: resolve branches, check
scalar types, merge, validate satisfiability.  Ok gives the merged node and
warnings; a `ValueError` is what the pass catches and records. -/
def collapseTry (index : SIndex) (doc_uri : String) (strict : Bool)
    (branches : List JSON) (json_ptr : String) : Except PyExc (JSON × List String) :=
  match resolve_allof_branches branches index json_ptr doc_uri with
  | .error e => .error e
  | .ok resolved =>
    match validate_scalar_types resolved json_ptr with
    | .error e => .error e
    | .ok scalar_type =>
      match merge_constraints resolved scalar_type json_ptr strict with
      | .error e => .error e
      | .ok (merged, w1) =>
        match validate_satisfiability merged json_ptr strict with
        | .error e => .error e
        | .ok w2 => .ok (merged, w1 ++ w2)

/-- Inline-allOf tracking of a successful collapse (the inner try/except of
the pass, whose `ValueError` is silently dropped). -/
def trackInline (node : JSON) (json_ptr : String) (parent_class : Option String)
    (merged : JSON) (schema_file : String) : List InlineAllOfInfo :=
  if _is_inline_property_allof node json_ptr parent_class then
    match parent_class with
    | some pc =>
      (match _extract_property_name json_ptr with
       | .ok pname => [⟨pname, pc, merged, json_ptr, schema_file⟩]
       | .error _ => [])
    | none => []
  else []

/-- Replace a key's value when a transformed child exists. -/
def applyChild (node : JSON) (key : String) : Option JSON → JSON
  | some v => node.set key v
  | none => node

mutual

/-- The walk-and-mutate transform of one pass over one node, following the
`walk_schema_nodes` order.  A successful collapse replaces the node with the
merged scalar (which has no structural keywords, so the walk does not
descend further); a caught `ValueError` records the error and the walk
continues into the children. -/
def collapseNode (fuel : Nat) (index : SIndex) (docUri fileName : String) (parentClass : Option String)
    (strict : Bool) (node : JSON) (json_ptr : String) : Except PyExc (JSON × CollapseAcc) :=
  match fuel with
  | 0 => .error .recursionError
  | fuel + 1 =>
    if is_allof_refinement node then
      match node.get? "allOf" with
      | some (.arr branches) =>
        (match collapseTry index docUri strict branches json_ptr with
         | .ok (merged, ws) =>
           let inl := trackInline node json_ptr parentClass merged fileName
           .ok (merged, ⟨1, [], inl, ws⟩)
         | .error (.valueError msg) =>
           (match collapseChildren fuel index docUri fileName parentClass strict node json_ptr with
            | .error e => .error e
            | .ok (node2, acc) =>
              .ok (node2, ⟨acc.collapsed, ⟨fileName, json_ptr, msg⟩ :: acc.errors,
                acc.inlines, acc.warns⟩))
         | .error e => .error e)
      | _ => .error (.typeError "unreachable: allOf is not a list")
    else
      collapseChildren fuel index docUri fileName parentClass strict node json_ptr
termination_by structural fuel

/-- Children of one node in walker category order; children are read from
the original node and substituted back (categories touch distinct keys). -/
def collapseChildren (fuel : Nat) (index : SIndex) (docUri fileName : String)
    (parentClass : Option String) (strict : Bool) (node : JSON) (json_ptr : String) :
    Except PyExc (JSON × CollapseAcc) :=
  match fuel with
  | 0 => .error .recursionError
  | fuel + 1 =>
    match node.get? "properties" with
    | some (.obj pkvs) =>
      (match collapseKvs fuel index docUri fileName parentClass strict pkvs
          (json_ptr ++ "/properties") true with
       | .error e => .error e
       | .ok (pkvs2, accP) => collapseChildren2 fuel index docUri fileName parentClass strict
           (node.set "properties" (.obj pkvs2)) node json_ptr accP)
    | _ => collapseChildren2 fuel index docUri fileName parentClass strict node node json_ptr
        CollapseAcc.empty
termination_by structural fuel

/-- One map-valued category (`patternProperties`, `dependentSchemas`,
`$defs`, `definitions`): read from `orig`, substitute into `cur`. -/
def stepKvsC (fuel : Nat) (index : SIndex) (docUri fileName : String) (parentClass : Option String)
    (strict : Bool) (orig : JSON) (json_ptr key : String) (escape : Bool) (cur : JSON) :
    Except PyExc (JSON × CollapseAcc) :=
  match fuel with
  | 0 => .error .recursionError
  | fuel + 1 =>
    match orig.get? key with
    | some (.obj kvs) =>
      (match collapseKvs fuel index docUri fileName parentClass strict kvs
          (json_ptr ++ "/" ++ key) escape with
       | .error e => .error e
       | .ok (kvs2, a) => .ok (cur.set key (.obj kvs2), a))
    | _ => .ok (cur, CollapseAcc.empty)
termination_by structural fuel

/-- One single-subschema category (`additionalProperties`, `contains`,
`if`/`then`/`else`/`not`). -/
def stepObjC (fuel : Nat) (index : SIndex) (docUri fileName : String) (parentClass : Option String)
    (strict : Bool) (orig : JSON) (json_ptr key : String) (cur : JSON) :
    Except PyExc (JSON × CollapseAcc) :=
  match fuel with
  | 0 => .error .recursionError
  | fuel + 1 =>
    match orig.get? key with
    | some (.obj okvs) =>
      (match collapseNode fuel index docUri fileName parentClass strict (.obj okvs)
          (json_ptr ++ "/" ++ key) with
       | .error e => .error e
       | .ok (v2, a) => .ok (cur.set key v2, a))
    | _ => .ok (cur, CollapseAcc.empty)
termination_by structural fuel

/-- One list-valued category (`prefixItems`, `allOf`, `anyOf`, `oneOf`). -/
def stepArrC (fuel : Nat) (index : SIndex) (docUri fileName : String) (parentClass : Option String)
    (strict : Bool) (orig : JSON) (json_ptr key : String) (cur : JSON) :
    Except PyExc (JSON × CollapseAcc) :=
  match fuel with
  | 0 => .error .recursionError
  | fuel + 1 =>
    match orig.get? key with
    | some (.arr xs) =>
      (match collapseArr fuel index docUri fileName parentClass strict xs
          (json_ptr ++ "/" ++ key) 0 with
       | .error e => .error e
       | .ok (xs2, a) => .ok (cur.set key (.arr xs2), a))
    | _ => .ok (cur, CollapseAcc.empty)
termination_by structural fuel

/-- The `items` category, which may hold a subschema or a list. -/
def stepItemsC (fuel : Nat) (index : SIndex) (docUri fileName : String) (parentClass : Option String)
    (strict : Bool) (orig : JSON) (json_ptr : String) (cur : JSON) :
    Except PyExc (JSON × CollapseAcc) :=
  match fuel with
  | 0 => .error .recursionError
  | fuel + 1 =>
    match orig.get? "items" with
    | some (.obj okvs) =>
      (match collapseNode fuel index docUri fileName parentClass strict (.obj okvs)
          (json_ptr ++ "/items") with
       | .error e => .error e
       | .ok (v2, a) => .ok (cur.set "items" v2, a))
    | some (.arr xs) =>
      (match collapseArr fuel index docUri fileName parentClass strict xs
          (json_ptr ++ "/items") 0 with
       | .error e => .error e
       | .ok (xs2, a) => .ok (cur.set "items" (.arr xs2), a))
    | _ => .ok (cur, CollapseAcc.empty)
termination_by structural fuel

/-- Categories after `properties`: patternProperties, additionalProperties,
items, prefixItems, contains, the combiners, the conditionals,
dependentSchemas and the definitions.  `orig` is the untransformed node
(sizes are measured against it); `acc0` carries the accumulator so far. -/
def collapseChildren2 (fuel : Nat) (index : SIndex) (docUri fileName : String)
    (parentClass : Option String) (strict : Bool) (cur orig : JSON) (json_ptr : String)
    (acc0 : CollapseAcc) : Except PyExc (JSON × CollapseAcc) :=
  match fuel with
  | 0 => .error .recursionError
  | fuel + 1 =>
    match stepKvsC fuel index docUri fileName parentClass strict orig json_ptr
        "patternProperties" true cur with
    | .error e => .error e
    | .ok (cur, a1) =>
      match stepObjC fuel index docUri fileName parentClass strict orig json_ptr
          "additionalProperties" cur with
      | .error e => .error e
      | .ok (cur, a2) =>
        match stepItemsC fuel index docUri fileName parentClass strict orig json_ptr cur with
        | .error e => .error e
        | .ok (cur, a3) =>
          match stepArrC fuel index docUri fileName parentClass strict orig json_ptr
              "prefixItems" cur with
          | .error e => .error e
          | .ok (cur, a4) =>
            match stepObjC fuel index docUri fileName parentClass strict orig json_ptr
                "contains" cur with
            | .error e => .error e
            | .ok (cur, a5) =>
              match stepArrC fuel index docUri fileName parentClass strict orig json_ptr
                  "allOf" cur with
              | .error e => .error e
              | .ok (cur, a6) =>
                match stepArrC fuel index docUri fileName parentClass strict orig json_ptr
                    "anyOf" cur with
                | .error e => .error e
                | .ok (cur, a7) =>
                  match stepArrC fuel index docUri fileName parentClass strict orig json_ptr
                      "oneOf" cur with
                  | .error e => .error e
                  | .ok (cur, a8) =>
                    match stepObjC fuel index docUri fileName parentClass strict orig json_ptr
                        "if" cur with
                    | .error e => .error e
                    | .ok (cur, a9) =>
                      match stepObjC fuel index docUri fileName parentClass strict orig json_ptr
                          "then" cur with
                      | .error e => .error e
                      | .ok (cur, a10) =>
                        match stepObjC fuel index docUri fileName parentClass strict orig
                            json_ptr "else" cur with
                        | .error e => .error e
                        | .ok (cur, a11) =>
                          match stepObjC fuel index docUri fileName parentClass strict orig
                              json_ptr "not" cur with
                          | .error e => .error e
                          | .ok (cur, a12) =>
                            match stepKvsC fuel index docUri fileName parentClass strict orig
                                json_ptr "dependentSchemas" true cur with
                            | .error e => .error e
                            | .ok (cur, a13) =>
                              match stepKvsC fuel index docUri fileName parentClass strict orig
                                  json_ptr "$defs" false cur with
                              | .error e => .error e
                              | .ok (cur, a14) =>
                                match stepKvsC fuel index docUri fileName parentClass strict
                                    orig json_ptr "definitions" false cur with
                                | .error e => .error e
                                | .ok (cur, a15) =>
                                  .ok (cur, acc0.append (a1.append (a2.append (a3.append
                                    (a4.append (a5.append (a6.append (a7.append (a8.append
                                    (a9.append (a10.append (a11.append (a12.append
                                    (a13.append (a14.append a15)))))))))))))))
termination_by structural fuel

/-- Transform the values of a properties-like map. -/
def collapseKvs (fuel : Nat) (index : SIndex) (docUri fileName : String) (parentClass : Option String)
    (strict : Bool) (kvs : List (String × JSON)) (ptrBase : String) (escape : Bool) :
    Except PyExc (List (String × JSON) × CollapseAcc) :=
  match fuel with
  | 0 => .error .recursionError
  | fuel + 1 =>
    match kvs with
    | [] => .ok ([], CollapseAcc.empty)
    | (name, v) :: rest =>
      let tok := if escape then escapePtrToken name else name
      match collapseNode fuel index docUri fileName parentClass strict v
          (ptrBase ++ "/" ++ tok) with
      | .error e => .error e
      | .ok (v2, a) =>
        (match collapseKvs fuel index docUri fileName parentClass strict rest ptrBase escape with
         | .error e => .error e
         | .ok (rest2, b) => .ok ((name, v2) :: rest2, a.append b))
termination_by structural fuel

/-- Transform the elements of a combiner/items list. -/
def collapseArr (fuel : Nat) (index : SIndex) (docUri fileName : String) (parentClass : Option String)
    (strict : Bool) (xs : List JSON) (ptrBase : String) (i : Nat) :
    Except PyExc (List JSON × CollapseAcc) :=
  match fuel with
  | 0 => .error .recursionError
  | fuel + 1 =>
    match xs with
    | [] => .ok ([], CollapseAcc.empty)
    | x :: rest =>
      match collapseNode fuel index docUri fileName parentClass strict x
          (ptrBase ++ "/" ++ toString i) with
      | .error e => .error e
      | .ok (x2, a) =>
        (match collapseArr fuel index docUri fileName parentClass strict rest ptrBase (i + 1) with
         | .error e => .error e
         | .ok (rest2, b) => .ok (x2 :: rest2, a.append b))
termination_by structural fuel

end

/-- The per-file body of a pass: parent class from the document title (with
the override table), then the walk from the root at pointer `#`. -/
def collapseFile (index : SIndex) (docUri fileName : String) (strict : Bool)
    (schema : JSON) : Except PyExc (JSON × CollapseAcc) :=
  let parentClassRes : Except PyExc (Option String) :=
    match schema.get? "title" with
    | some t =>
      if t.truthy then
        match t with
        | .str ts => .ok (some ((assocGet index.classNameOverrides ts).getD ts))
        | _ => .error (.typeError "title is not a string")
      else .ok none
    | none => .ok none
  match parentClassRes with
  | .error e => .error e
  | .ok parentClass =>
    collapseNode (100 * (schema.size + 1)) index docUri fileName parentClass strict
      schema "#"

/-- Insertion into a key-sorted association list. -/
def insertKvSorted (p : String × JSON) : List (String × JSON) → List (String × JSON)
  | [] => [p]
  | q :: rest => if strLt p.1 q.1 then p :: q :: rest else q :: insertKvSorted p rest

/-- Sort an association list by key. -/
def sortKvsByKey (kvs : List (String × JSON)) : List (String × JSON) :=
  kvs.foldr insertKvSorted []

mutual

/-- Sorted-keys re-serialization (`json.dump(..., sort_keys=True)`). -/
def sortKeysDeep : JSON → JSON
  | .obj kvs => .obj (sortKvsByKey (sortKeysKvs kvs))
  | .arr xs => .arr (sortKeysArr xs)
  | x => x

def sortKeysKvs : List (String × JSON) → List (String × JSON)
  | [] => []
  | (k, v) :: rest => (k, sortKeysDeep v) :: sortKeysKvs rest

def sortKeysArr : List JSON → List JSON
  | [] => []
  | x :: rest => sortKeysDeep x :: sortKeysArr rest

end

/-- The result of one pass of the fixpoint loop over the sorted files. -/
structure PassResult where
  docs : List (String × JSON)
  collapsedCount : Nat
  errors : List ValidationError
  inlines : List InlineAllOfInfo
  warns : List String
deriving DecidableEq

/-- One iteration of the loop body of `process_allof_collapse`: every
`*.json` file in sorted order; files not in the index are skipped; a file is
rewritten (with sorted keys) only when something in it collapsed. -/
def onePassGo (index : SIndex) (strict : Bool) :
    List (String × JSON) → Except PyExc PassResult
  | [] => .ok ⟨[], 0, [], [], []⟩
  | (name, schema) :: rest =>
    if ¬(pyEndsWith name ".json" ∧ 5 < name.length) then
      (onePassGo index strict rest).map fun r => { r with docs := (name, schema) :: r.docs }
    else
      match index.doc_uri_for_path name with
      | none =>
        (onePassGo index strict rest).map fun r =>
          { r with docs := (name, schema) :: r.docs }
      | some docUri =>
        match collapseFile index docUri name strict schema with
        | .error e => .error e
        | .ok (schema2, acc) =>
          let entry := if acc.collapsed > 0 then (name, sortKeysDeep schema2)
            else (name, schema)
          (onePassGo index strict rest).map fun r =>
            ⟨entry :: r.docs, acc.collapsed + r.collapsedCount, acc.errors ++ r.errors,
             acc.inlines ++ r.inlines, acc.warns ++ r.warns⟩

/-- One pass over the (sorted) document set. -/
def onePass (index : SIndex) (strict : Bool) (docs : List (String × JSON)) :
    Except PyExc PassResult :=
  onePassGo index strict (sortFiles docs)

/-- The final state of `process_allof_collapse`:  `errors` are the errors of
the last executed pass (the `errors` variable after the loop), `fixpoint`
records whether the loop ended with a zero-collapse pass, and `finalIndex`
is the index in use when the loop ended. -/
structure CollapseResult where
  docs : List (String × JSON)
  inlines : List InlineAllOfInfo
  totalCollapsed : Nat
  errors : List ValidationError
  warns : List String
  fixpoint : Bool
  finalIndex : SIndex
deriving DecidableEq

/-- The fixpoint loop (`for iteration in range(max_iterations)`), with the
index rebuilt from the mutated documents after every pass that changed
something.  `baseUrl` is `index.base_url`, which `SchemaIndex.load` stores
unchanged, so carrying it through the loop is equivalent to re-reading it
from the current index as the source does. -/
def collapseLoop (fuel : Nat) (docs : List (String × JSON)) (index : SIndex)
    (baseUrl : Option String)
    (strict : Bool) (inlinesAcc : List InlineAllOfInfo) (totalAcc : Nat)
    (warnsAcc : List String) (lastErrors : List ValidationError) (lastCollapsed : Nat) :
    Except PyExc CollapseResult :=
  match fuel with
  | 0 =>
    let warn :=
      if lastCollapsed > 0 then
        ["Max iterations (10) reached with " ++ toString lastCollapsed ++
         " remaining collapses. Some allOf may remain unprocessed."]
      else []
    .ok ⟨docs, inlinesAcc, totalAcc, lastErrors, warnsAcc ++ warn, false, index⟩
  | fuel + 1 =>
    match onePass index strict docs with
    | .error e => .error e
    | .ok r =>
      let inlines := inlinesAcc ++ r.inlines
      let total := totalAcc + r.collapsedCount
      let warns := warnsAcc ++ r.warns
      if r.collapsedCount = 0 then
        .ok ⟨r.docs, inlines, total, r.errors, warns, true, index⟩
      else
        match SIndex.load r.docs baseUrl with
        | .error e => .error e
        | .ok index2 =>
          collapseLoop fuel r.docs index2 baseUrl strict inlines total warns r.errors
            r.collapsedCount

/-- `process_allof_collapse`: run the fixpoint loop (10 iterations maximum)
and, in strict mode with accumulated errors, abort with a `RuntimeError`
reporting every accumulated error. -/
def process_allof_collapse (docs : List (String × JSON)) (index : SIndex)
    (strict : Bool) : Except PyExc CollapseResult :=
  match collapseLoop 10 docs index index.baseUrl strict [] 0 [] [] 0 with
  | .error e => .error e
  | .ok r =>
    if ¬r.errors.isEmpty ∧ strict then
      .error (.runtimeError ("allOf processing encountered " ++ toString r.errors.length ++
        " error(s):\n\n" ++ String.intercalate "\n\n" (r.errors.map ValidationError.toStr)))
    else .ok r

/-! ## Concrete schemas used by witnesses and counterexamples -/

/-- UUID pattern allowing versions 1-5. -/
def uuidPat15 : String :=
  "^[0-9a-f]{8}-[0-9a-f]{4}-[1-5][0-9a-f]{3}-[89ab][0-9a-f]{3}-[0-9a-f]{12}$"

/-- UUID pattern requiring version 7. -/
def uuidPat7 : String :=
  "^[0-9a-f]{8}-[0-9a-f]{4}-7[0-9a-f]{3}-[89ab][0-9a-f]{3}-[0-9a-f]{12}$"

/-- UUID pattern allowing versions 1-7. -/
def uuidPat17 : String :=
  "^[0-9a-f]{8}-[0-9a-f]{4}-[1-7][0-9a-f]{3}-[89ab][0-9a-f]{3}-[0-9a-f]{12}$"

/-- A string branch carrying only a pattern constraint. -/
def patternBranch (p : String) : JSON :=
  .obj [("type", .str "string"), ("pattern", .str p)]

/-- Two branches whose UUID version sets ({1..5} and {7}) do not intersect. -/
def exC3branches : List JSON := [patternBranch uuidPat15, patternBranch uuidPat7]

/-- Two branches whose UUID version sets are {1..7} and its subset {7}. -/
def exC6branches : List JSON := [patternBranch uuidPat17, patternBranch uuidPat7]

/-- Two string branches with overlapping length windows. -/
def exC5branches : List JSON :=
  [.obj [("type", .str "string"), ("minLength", .num 3), ("maxLength", .num 20)],
   .obj [("type", .str "string"), ("minLength", .num 5), ("maxLength", .num 10)]]

/-- Collapse result of `exC5branches`. -/
def exC5merged : JSON :=
  .obj [("type", .str "string"), ("minLength", .num 5), ("maxLength", .num 10)]

/-- Collapse result of `exC6branches` (the more specific v7 pattern wins). -/
def exC6merged : JSON := .obj [("type", .str "string"), ("pattern", .str uuidPat7)]

/-- Lenient-mode collapse result of `exC3branches` (first pattern kept). -/
def exC3merged : JSON := .obj [("type", .str "string"), ("pattern", .str uuidPat15)]

/-- The version set {1..5}. -/
def verSet15 : List Char := ['1', '2', '3', '4', '5']

/-- The version set {7}. -/
def verSet7 : List Char := ['7']

/-- The version set {1..7}. -/
def verSet17 : List Char := ['1', '2', '3', '4', '5', '6', '7']

/-- Warnings emitted by the lenient-mode collapse of `exC3branches`. -/
def exC3warns : List String :=
  ["Pattern conflict (lenient mode): " ++
    uuidConflictMsg "#/properties/event_id" verSet15 verSet7]

/-- A document whose `$defs/S` subtree declares its own nested `$id` and
holds an allOf chain whose first branch references `other.json` relative to
that nested base. -/
def exC1nodeS : JSON := .obj [
  ("$id", .str "http://x/s.json"),
  ("allOf", .arr [.obj [("$ref", .str "other.json")],
                  .obj [("type", .str "string"), ("minLength", .num 1)]])]

def exC1docA : JSON := .obj [("$defs", .obj [("S", exC1nodeS)])]

/-- The document identified as `http://x/other.json` — what `other.json`
denotes under the nested base URI. -/
def exC1docB : JSON :=
  .obj [("$id", .str "http://x/other.json"), ("type", .str "string"), ("maxLength", .num 5)]

/-- The index state over the two documents above (no base URL), written
out field by field: the documents table, the registered pointers, and the
per-node base URIs — the `$defs/S` subtree and its allOf branches carry the
nested base `http://x/s.json`. -/
def exC1index : SIndex :=
{ docs := [("lithify:///a.json", (exC1docA, ("a.json", []))),
    ("http://x/s.json", (exC1nodeS, ("a.json", ["$defs", "S"]))),
    ("http://x/other.json", (exC1docB, ("b.json", [])))],
  anchors := [],
  pointers := [("lithify:///a.json#/$defs/S", (exC1nodeS, ("a.json", ["$defs", "S"]))),
    ("lithify:///a.json#/$defs/S/allOf/0",
      (.obj [("$ref", .str "other.json")], ("a.json", ["$defs", "S", "allOf", "0"]))),
    ("lithify:///a.json#/$defs/S/allOf/1",
      (.obj [("type", .str "string"), ("minLength", .num 1)],
       ("a.json", ["$defs", "S", "allOf", "1"])))],
  subschemaBases := [(("a.json", []), "lithify:///a.json"),
    (("a.json", ["$defs", "S"]), "http://x/s.json"),
    (("a.json", ["$defs", "S", "allOf", "0"]), "http://x/s.json"),
    (("a.json", ["$defs", "S", "allOf", "1"]), "http://x/s.json"),
    (("b.json", []), "http://x/other.json")],
  originFiles := [("lithify:///a.json", "a.json"), ("http://x/other.json", "b.json")],
  classNameOverrides := [],
  baseUrl := none }

/-- The allOf branches of `exC1docA`'s `$defs/S` subtree. -/
def exC1branches : List JSON :=
  [.obj [("$ref", .str "other.json")],
   .obj [("type", .str "string"), ("minLength", .num 1)]]

/-- The nested-defs fixpoint document from the repository's own test suite:
`Base` refines `Primitive`, `Refined` refines `Base`. -/
def exNestedDoc : JSON := .obj [
  ("$schema", .str "https://json-schema.org/draft/2020-12/schema"),
  ("$defs", .obj [
    ("Primitive", .obj [("type", .str "string"), ("pattern", .str "^[a-z]+$")]),
    ("Base", .obj [("allOf", .arr [.obj [("$ref", .str "#/$defs/Primitive")],
      .obj [("minLength", .num 3)]])]),
    ("Refined", .obj [("allOf", .arr [.obj [("$ref", .str "#/$defs/Base")],
      .obj [("maxLength", .num 10)]])])])]

def exNBaseNode : JSON :=
  .obj [("allOf", .arr [.obj [("$ref", .str "#/$defs/Primitive")],
    .obj [("minLength", .num 3)]])]

def exNRefinedNode : JSON :=
  .obj [("allOf", .arr [.obj [("$ref", .str "#/$defs/Base")],
    .obj [("maxLength", .num 10)]])]

/-- The index state over `exNestedDoc` with a `file://` base URL, written
out field by field. -/
def exNestedIndex : SIndex :=
{ docs := [("file:///t/nested.json", (exNestedDoc, ("nested.json", [])))],
  anchors := [],
  pointers := [
    ("file:///t/nested.json#/$defs/Primitive",
      (.obj [("type", .str "string"), ("pattern", .str "^[a-z]+$")],
       ("nested.json", ["$defs", "Primitive"]))),
    ("file:///t/nested.json#/$defs/Base", (exNBaseNode, ("nested.json", ["$defs", "Base"]))),
    ("file:///t/nested.json#/$defs/Base/allOf/0",
      (.obj [("$ref", .str "#/$defs/Primitive")],
       ("nested.json", ["$defs", "Base", "allOf", "0"]))),
    ("file:///t/nested.json#/$defs/Base/allOf/1",
      (.obj [("minLength", .num 3)], ("nested.json", ["$defs", "Base", "allOf", "1"]))),
    ("file:///t/nested.json#/$defs/Refined",
      (exNRefinedNode, ("nested.json", ["$defs", "Refined"]))),
    ("file:///t/nested.json#/$defs/Refined/allOf/0",
      (.obj [("$ref", .str "#/$defs/Base")],
       ("nested.json", ["$defs", "Refined", "allOf", "0"]))),
    ("file:///t/nested.json#/$defs/Refined/allOf/1",
      (.obj [("maxLength", .num 10)], ("nested.json", ["$defs", "Refined", "allOf", "1"])))],
  subschemaBases := [(("nested.json", []), "file:///t/nested.json"),
    (("nested.json", ["$defs", "Primitive"]), "file:///t/nested.json"),
    (("nested.json", ["$defs", "Base"]), "file:///t/nested.json"),
    (("nested.json", ["$defs", "Base", "allOf", "0"]), "file:///t/nested.json"),
    (("nested.json", ["$defs", "Base", "allOf", "1"]), "file:///t/nested.json"),
    (("nested.json", ["$defs", "Refined"]), "file:///t/nested.json"),
    (("nested.json", ["$defs", "Refined", "allOf", "0"]), "file:///t/nested.json"),
    (("nested.json", ["$defs", "Refined", "allOf", "1"]), "file:///t/nested.json")],
  originFiles := [("file:///t/nested.json", "nested.json")],
  classNameOverrides := [],
  baseUrl := some "file:///t/nested.json" }

/-- The `Primitive` definition node of `exNestedDoc`. -/
def exPrimitiveNode : JSON := .obj [("type", .str "string"), ("pattern", .str "^[a-z]+$")]

/-- The allOf branches of `Base` in `exNestedDoc`. -/
def exBaseBranches : List JSON :=
  [.obj [("$ref", .str "#/$defs/Primitive")], .obj [("minLength", .num 3)]]

/-- A string refinement chain whose merged length window is empty
(minLength 5 > maxLength 2). -/
def exC4nodeP : JSON := .obj [("allOf", .arr [
  .obj [("type", .str "string"), ("minLength", .num 5)],
  .obj [("type", .str "string"), ("maxLength", .num 2)]])]

/-- The branches of `exC4nodeP`. -/
def exC4branchesP : List JSON :=
  [.obj [("type", .str "string"), ("minLength", .num 5)],
   .obj [("type", .str "string"), ("maxLength", .num 2)]]

/-- An integer refinement chain whose merged numeric window is empty
(minimum 10 > maximum 1). -/
def exC4nodeQ : JSON := .obj [("allOf", .arr [
  .obj [("type", .str "integer"), ("minimum", .num 10)],
  .obj [("type", .str "integer"), ("maximum", .num 1)]])]

/-- A document holding both unsatisfiable chains, under properties `p` and
`q`. -/
def exC4doc : JSON := .obj [("properties", .obj [("p", exC4nodeP), ("q", exC4nodeQ)])]

/-- The index state over `exC4doc` (no base URL), written out field by
field. -/
def exC4index : SIndex :=
{ docs := [("lithify:///c4.json", (exC4doc, ("c4.json", [])))],
  anchors := [],
  pointers := [
    ("lithify:///c4.json#/properties/p", (exC4nodeP, ("c4.json", ["properties", "p"]))),
    ("lithify:///c4.json#/properties/p/allOf/0",
      (.obj [("type", .str "string"), ("minLength", .num 5)],
       ("c4.json", ["properties", "p", "allOf", "0"]))),
    ("lithify:///c4.json#/properties/p/allOf/1",
      (.obj [("type", .str "string"), ("maxLength", .num 2)],
       ("c4.json", ["properties", "p", "allOf", "1"]))),
    ("lithify:///c4.json#/properties/q", (exC4nodeQ, ("c4.json", ["properties", "q"]))),
    ("lithify:///c4.json#/properties/q/allOf/0",
      (.obj [("type", .str "integer"), ("minimum", .num 10)],
       ("c4.json", ["properties", "q", "allOf", "0"]))),
    ("lithify:///c4.json#/properties/q/allOf/1",
      (.obj [("type", .str "integer"), ("maximum", .num 1)],
       ("c4.json", ["properties", "q", "allOf", "1"])))],
  subschemaBases := [(("c4.json", []), "lithify:///c4.json"),
    (("c4.json", ["properties", "p"]), "lithify:///c4.json"),
    (("c4.json", ["properties", "p", "allOf", "0"]), "lithify:///c4.json"),
    (("c4.json", ["properties", "p", "allOf", "1"]), "lithify:///c4.json"),
    (("c4.json", ["properties", "q"]), "lithify:///c4.json"),
    (("c4.json", ["properties", "q", "allOf", "0"]), "lithify:///c4.json"),
    (("c4.json", ["properties", "q", "allOf", "1"]), "lithify:///c4.json")],
  originFiles := [("lithify:///c4.json", "c4.json")],
  classNameOverrides := [],
  baseUrl := none }

/-- The satisfiability error reported for `p`. -/
def exC4msgP : String :=
  "Impossible constraints at #/properties/p:\n  minLength=5 > maxLength=2\n  No string can satisfy both constraints"

/-- The satisfiability error reported for `q`. -/
def exC4msgQ : String :=
  "Impossible constraints at #/properties/q:\n  minimum=10 > maximum=1\n  No number can satisfy both constraints"

/-- The pass error record for `p`. -/
def exC4errP : ValidationError := ⟨"c4.json", "#/properties/p", exC4msgP⟩

/-- The pass error record for `q`. -/
def exC4errQ : ValidationError := ⟨"c4.json", "#/properties/q", exC4msgQ⟩

/-- The strict-mode abort message reporting both accumulated errors. -/
def exC4abortMsg : String :=
  "allOf processing encountered 2 error(s):\n\n" ++ exC4errP.toStr ++ "\n\n" ++
  exC4errQ.toStr

end Lithify

namespace Lithify

/-! # Theorems -/

/-! ## Association list and object lemmas -/

theorem assocGet_set_self {κ α : Type} [DecidableEq κ] (l : List (κ × α)) (k : κ) (v : α) :
    assocGet (assocSet l k v) k = some v := by
  induction l with
  | nil => simp [assocSet, assocGet]
  | cons p rest ih =>
    obtain ⟨a, b⟩ := p
    by_cases h : a = k <;> simp [assocSet, assocGet, h, ih]

theorem assocGet_set_ne {κ α : Type} [DecidableEq κ] (l : List (κ × α)) {k k2 : κ} (v : α)
    (h : k2 ≠ k) : assocGet (assocSet l k v) k2 = assocGet l k2 := by
  induction l with
  | nil =>
    simp only [assocSet, assocGet]
    rw [if_neg (fun e => h e.symm)]
  | cons p rest ih =>
    obtain ⟨a, b⟩ := p
    simp only [assocSet]
    by_cases ha : a = k
    · rw [if_pos ha]
      subst ha
      simp only [assocGet]
      rw [if_neg (fun e => h e.symm), if_neg (fun e => h e.symm)]
    · rw [if_neg ha]
      simp only [assocGet]
      by_cases ha2 : a = k2
      · rw [if_pos ha2, if_pos ha2]
      · rw [if_neg ha2, if_neg ha2, ih]

theorem JSON.get?_set_self {j : JSON} (hobj : j.isObj = true) (k : String) (v : JSON) :
    (j.set k v).get? k = some v := by
  cases j with
  | obj kvs => simp [JSON.set, JSON.get?, assocGet_set_self]
  | _ => simp [JSON.isObj] at hobj

theorem JSON.get?_set_ne (j : JSON) {k k2 : String} (v : JSON) (h : k2 ≠ k) :
    (j.set k v).get? k2 = j.get? k2 := by
  cases j <;> simp [JSON.set, JSON.get?]
  exact assocGet_set_ne _ _ h

theorem JSON.isObj_set (j : JSON) (k : String) (v : JSON) :
    (j.set k v).isObj = j.isObj := by
  cases j <;> simp [JSON.set, JSON.isObj]

/-! ## merge_constraints stage lemmas -/

theorem setSubset_refl (a : List Char) : setSubset a a = true := by
  simp [setSubset]

theorem pyBind_ok {α β : Type} (a : α) (f : α → Except PyExc β) :
    (Except.ok a >>= f) = f a := rfl

theorem pyMaxNums_go_map (as : List Int) : ∀ (acc : Int),
    pyMaxNums.go acc (as.map JSON.num) = .ok (intMax acc as) := by
  induction as with
  | nil => intro acc; rfl
  | cons x xs ih =>
    intro acc
    simp only [List.map_cons, pyMaxNums.go, asConstraintNum, pyBind_ok]
    exact ih (max acc x)

theorem pyMaxNums_map (a : Int) (as : List Int) :
    pyMaxNums ((a :: as).map JSON.num) = .ok (intMax a as) := by
  simp only [List.map_cons, pyMaxNums, asConstraintNum, pyBind_ok]
  exact pyMaxNums_go_map as a

theorem pyMinNums_go_map (as : List Int) : ∀ (acc : Int),
    pyMinNums.go acc (as.map JSON.num) = .ok (intMin acc as) := by
  induction as with
  | nil => intro acc; rfl
  | cons x xs ih =>
    intro acc
    simp only [List.map_cons, pyMinNums.go, asConstraintNum, pyBind_ok]
    exact ih (min acc x)

theorem pyMinNums_map (a : Int) (as : List Int) :
    pyMinNums ((a :: as).map JSON.num) = .ok (intMin a as) := by
  simp only [List.map_cons, pyMinNums, asConstraintNum, pyBind_ok]
  exact pyMinNums_go_map as a

theorem setLoStep_map (merged : JSON) (loKey : String) (a : Int) (as : List Int) :
    setLoStep merged ((a :: as).map JSON.num) loKey =
      .ok (merged.set loKey (.num (intMax a as))) := by
  unfold setLoStep
  rw [if_neg (by simp), pyMaxNums_map]

theorem setHiStep_map (m1 : JSON) (hiKey : String) (b : Int) (bs : List Int) :
    setHiStep m1 ((b :: bs).map JSON.num) hiKey =
      .ok (m1.set hiKey (.num (intMin b bs))) := by
  unfold setHiStep
  rw [if_neg (by simp), pyMinNums_map]

theorem setLoStep_ok_get {merged m : JSON} {los : List JSON} {loKey k : String}
    (h : k ≠ loKey) (hok : setLoStep merged los loKey = .ok m) :
    m.get? k = merged.get? k := by
  unfold setLoStep at hok
  by_cases he : los.isEmpty
  · rw [if_pos he] at hok; cases hok; rfl
  · rw [if_neg he] at hok
    cases hp : pyMaxNums los with
    | error e => rw [hp] at hok; cases hok
    | ok n => rw [hp] at hok; cases hok; exact JSON.get?_set_ne _ _ h

theorem setHiStep_ok_get {m1 m : JSON} {his : List JSON} {hiKey k : String}
    (h : k ≠ hiKey) (hok : setHiStep m1 his hiKey = .ok m) :
    m.get? k = m1.get? k := by
  unfold setHiStep at hok
  by_cases he : his.isEmpty
  · rw [if_pos he] at hok; cases hok; rfl
  · rw [if_neg he] at hok
    cases hp : pyMinNums his with
    | error e => rw [hp] at hok; cases hok
    | ok n => rw [hp] at hok; cases hok; exact JSON.get?_set_ne _ _ h

theorem setLoStep_ok_isObj {merged m : JSON} {los : List JSON} {loKey : String}
    (hobj : merged.isObj = true) (hok : setLoStep merged los loKey = .ok m) :
    m.isObj = true := by
  unfold setLoStep at hok
  by_cases he : los.isEmpty
  · rw [if_pos he] at hok; cases hok; exact hobj
  · rw [if_neg he] at hok
    cases hp : pyMaxNums los with
    | error e => rw [hp] at hok; cases hok
    | ok n => rw [hp] at hok; cases hok; rw [JSON.isObj_set]; exact hobj

theorem setHiStep_ok_isObj {m1 m : JSON} {his : List JSON} {hiKey : String}
    (hobj : m1.isObj = true) (hok : setHiStep m1 his hiKey = .ok m) :
    m.isObj = true := by
  unfold setHiStep at hok
  by_cases he : his.isEmpty
  · rw [if_pos he] at hok; cases hok; exact hobj
  · rw [if_neg he] at hok
    cases hp : pyMinNums his with
    | error e => rw [hp] at hok; cases hok
    | ok n => rw [hp] at hok; cases hok; rw [JSON.isObj_set]; exact hobj

/-- Decomposition of a successful `mergeMinMaxPair` into its two steps. -/
theorem mergeMinMaxPair_decomp {merged m : JSON} {branches : List JSON}
    {loKey hiKey : String} (hok : mergeMinMaxPair merged branches loKey hiKey = .ok m) :
    ∃ m1, setLoStep merged (collectVals branches loKey) loKey = .ok m1 ∧
      setHiStep m1 (collectVals branches hiKey) hiKey = .ok m := by
  unfold mergeMinMaxPair at hok
  cases hstep : setLoStep merged (collectVals branches loKey) loKey with
  | error e => rw [hstep] at hok; cases hok
  | ok m1 =>
    rw [hstep] at hok
    simp only at hok
    exact ⟨m1, rfl, hok⟩

theorem mergeMinMaxPair_ok_lo {merged m : JSON} {branches : List JSON} {loKey hiKey : String}
    {a : Int} {as : List Int} (hobj : merged.isObj = true) (hne : loKey ≠ hiKey)
    (hlo : collectVals branches loKey = (a :: as).map JSON.num)
    (hok : mergeMinMaxPair merged branches loKey hiKey = .ok m) :
    m.get? loKey = some (.num (intMax a as)) := by
  obtain ⟨m1, hstep, hhi⟩ := mergeMinMaxPair_decomp hok
  rw [hlo, setLoStep_map] at hstep
  cases hstep
  rw [setHiStep_ok_get hne hhi]
  exact JSON.get?_set_self hobj _ _

theorem mergeMinMaxPair_ok_hi {merged m : JSON} {branches : List JSON} {loKey hiKey : String}
    {b : Int} {bs : List Int} (hobj : merged.isObj = true)
    (hhi : collectVals branches hiKey = (b :: bs).map JSON.num)
    (hok : mergeMinMaxPair merged branches loKey hiKey = .ok m) :
    m.get? hiKey = some (.num (intMin b bs)) := by
  obtain ⟨m1, hstep, hstep2⟩ := mergeMinMaxPair_decomp hok
  rw [hhi, setHiStep_map] at hstep2
  cases hstep2
  exact JSON.get?_set_self (setLoStep_ok_isObj hobj hstep) _ _

theorem mergeMinMaxPair_ok_other {merged m : JSON} {branches : List JSON}
    {loKey hiKey k : String} (h1 : k ≠ loKey) (h2 : k ≠ hiKey)
    (hok : mergeMinMaxPair merged branches loKey hiKey = .ok m) :
    m.get? k = merged.get? k := by
  obtain ⟨m1, hstep, hstep2⟩ := mergeMinMaxPair_decomp hok
  rw [setHiStep_ok_get h2 hstep2]
  exact setLoStep_ok_get h1 hstep

theorem mergeMinMaxPair_ok_isObj {merged m : JSON} {branches : List JSON}
    {loKey hiKey : String} (hobj : merged.isObj = true)
    (hok : mergeMinMaxPair merged branches loKey hiKey = .ok m) :
    m.isObj = true := by
  obtain ⟨m1, hstep, hstep2⟩ := mergeMinMaxPair_decomp hok
  exact setHiStep_ok_isObj (setLoStep_ok_isObj hobj hstep) hstep2

theorem mergeEnums_ok_other {merged m : JSON} {branches : List JSON} {strict : Bool}
    {w : List String} {k : String} (h : k ≠ "enum")
    (hok : mergeEnums merged branches strict = .ok (m, w)) :
    m.get? k = merged.get? k := by
  unfold mergeEnums at hok
  by_cases he : (collectVals branches "enum").isEmpty
  · rw [if_pos he] at hok; cases hok; rfl
  · rw [if_neg he] at hok
    cases hm : ((collectVals branches "enum").mapM fun e =>
        match e with
        | .arr vs => strSetOf vs
        | _ => Except.error (.typeError "enum is not iterable")) with
    | error e => rw [hm] at hok; cases hok
    | ok enums =>
      rw [hm] at hok
      simp only at hok
      by_cases hi : ((enums.headD []).filter fun s => enums.all (s ∈ ·)).isEmpty
      · rw [if_pos hi] at hok
        cases strict with
        | true => cases hok
        | false => cases hok; exact JSON.get?_set_ne _ _ h
      · rw [if_neg hi] at hok
        cases hok
        exact JSON.get?_set_ne _ _ h

theorem mergeEnums_ok_isObj {merged m : JSON} {branches : List JSON} {strict : Bool}
    {w : List String} (hobj : merged.isObj = true)
    (hok : mergeEnums merged branches strict = .ok (m, w)) :
    m.isObj = true := by
  unfold mergeEnums at hok
  by_cases he : (collectVals branches "enum").isEmpty
  · rw [if_pos he] at hok; cases hok; exact hobj
  · rw [if_neg he] at hok
    cases hm : ((collectVals branches "enum").mapM fun e =>
        match e with
        | .arr vs => strSetOf vs
        | _ => Except.error (.typeError "enum is not iterable")) with
    | error e => rw [hm] at hok; cases hok
    | ok enums =>
      rw [hm] at hok
      simp only at hok
      by_cases hi : ((enums.headD []).filter fun s => enums.all (s ∈ ·)).isEmpty
      · rw [if_pos hi] at hok
        cases strict with
        | true => cases hok
        | false => cases hok; rw [JSON.isObj_set]; exact hobj
      · rw [if_neg hi] at hok; cases hok; rw [JSON.isObj_set]; exact hobj

theorem mergeFormat_get_other {merged : JSON} {branches : List JSON} {k : String}
    (h : k ≠ "format") : (mergeFormat merged branches).get? k = merged.get? k := by
  unfold mergeFormat
  cases branches.find? (·.hasKey "format") with
  | none => rfl
  | some b => exact JSON.get?_set_ne _ _ h

theorem mergePatterns_ok_other {merged m : JSON} {patterns : List JSON}
    {ptr : String} {strict : Bool} {w : List String} {k : String}
    (h1 : k ≠ "pattern") (h2 : k ≠ "_validator_patterns")
    (hok : mergePatterns merged patterns ptr strict = .ok (m, w)) :
    m.get? k = merged.get? k := by
  unfold mergePatterns at hok
  by_cases he : patterns.isEmpty
  · rw [if_pos he] at hok; cases hok; rfl
  · rw [if_neg he] at hok
    cases hu : try_uuid_pattern_specialization patterns ptr with
    | ok o =>
      rw [hu] at hok
      cases o with
      | some sp => simp only at hok; cases hok; exact JSON.get?_set_ne _ _ h1
      | none =>
        simp only at hok; cases hok
        rw [JSON.get?_set_ne _ _ h1]
        exact JSON.get?_set_ne _ _ h2
    | error e =>
      rw [hu] at hok
      cases e with
      | valueError msg =>
        simp only at hok
        cases strict with
        | true => cases hok
        | false => simp only [Bool.false_eq_true, if_false] at hok; cases hok;
                   exact JSON.get?_set_ne _ _ h1
      | typeError msg => cases hok
      | attributeError msg => cases hok
      | keyError msg => cases hok
      | indexError msg => cases hok
      | exitApp msg => cases hok
      | runtimeError msg => cases hok
      | recursionError => cases hok

theorem mergePatterns_ok_isObj {merged m : JSON} {patterns : List JSON}
    {ptr : String} {strict : Bool} {w : List String} (hobj : merged.isObj = true)
    (hok : mergePatterns merged patterns ptr strict = .ok (m, w)) :
    m.isObj = true := by
  unfold mergePatterns at hok
  by_cases he : patterns.isEmpty
  · rw [if_pos he] at hok; cases hok; exact hobj
  · rw [if_neg he] at hok
    cases hu : try_uuid_pattern_specialization patterns ptr with
    | ok o =>
      rw [hu] at hok
      cases o with
      | some sp => simp only at hok; cases hok; rw [JSON.isObj_set]; exact hobj
      | none =>
        simp only at hok; cases hok
        rw [JSON.isObj_set, JSON.isObj_set]; exact hobj
    | error e =>
      rw [hu] at hok
      cases e with
      | valueError msg =>
        simp only at hok
        cases strict with
        | true => cases hok
        | false => simp only [Bool.false_eq_true, if_false] at hok; cases hok;
                   rw [JSON.isObj_set]; exact hobj
      | typeError msg => cases hok
      | attributeError msg => cases hok
      | keyError msg => cases hok
      | indexError msg => cases hok
      | exitApp msg => cases hok
      | runtimeError msg => cases hok
      | recursionError => cases hok

/-- Decomposition of a successful `merge_constraints` run into its stages. -/
theorem merge_constraints_decomp {branches : List JSON} {t ptr : String} {strict : Bool}
    {m : JSON} {warns : List String}
    (hok : merge_constraints branches t ptr strict = .ok (m, warns)) :
    ∃ m1 w1 m2 m3 m4 w2,
      mergePatterns (.obj [("type", .str t)]) (collectVals branches "pattern") ptr strict =
        .ok (m1, w1) ∧
      mergeLengths m1 branches = .ok m2 ∧
      mergeBounds m2 branches = .ok m3 ∧
      mergeEnums m3 branches strict = .ok (m4, w2) ∧
      m = mergeFormat m4 branches ∧ warns = w1 ++ w2 := by
  unfold merge_constraints at hok
  cases h1 : mergePatterns (.obj [("type", .str t)]) (collectVals branches "pattern")
      ptr strict with
  | error e => rw [h1] at hok; cases hok
  | ok p1 =>
    obtain ⟨m1, w1⟩ := p1
    rw [h1] at hok
    simp only at hok
    cases h2 : mergeLengths m1 branches with
    | error e => rw [h2] at hok; cases hok
    | ok m2 =>
      rw [h2] at hok
      simp only at hok
      cases h3 : mergeBounds m2 branches with
      | error e => rw [h3] at hok; cases hok
      | ok m3 =>
        rw [h3] at hok
        simp only at hok
        cases h4 : mergeEnums m3 branches strict with
        | error e => rw [h4] at hok; cases hok
        | ok p4 =>
          obtain ⟨m4, w2⟩ := p4
          rw [h4] at hok
          simp only at hok
          cases hok
          exact ⟨m1, w1, m2, m3, m4, w2, rfl, h2, h3, h4, rfl, rfl⟩

theorem merge_constraints_error_of_patterns {branches : List JSON} {t ptr : String}
    {strict : Bool} {e : PyExc}
    (he : mergePatterns (.obj [("type", .str t)]) (collectVals branches "pattern") ptr strict =
      .error e) :
    merge_constraints branches t ptr strict = .error e := by
  unfold merge_constraints
  rw [he]

/-! ## try_uuid_pattern_specialization case lemmas -/

theorem try_uuid_keep_p2 {p1 p2 ptr : String} {v1 v2 : List Char}
    (h1 : extract_uuid_version_set p1 = some v1)
    (h2 : extract_uuid_version_set p2 = some v2)
    (hint : setInter v1 v2 ≠ []) (hs : setSubset v2 v1 = true) (hne : v2 ≠ v1) :
    try_uuid_pattern_specialization [.str p1, .str p2] ptr = .ok (some p2) := by
  unfold try_uuid_pattern_specialization
  simp only
  rw [h1, h2]
  simp only
  rw [if_neg hint, if_pos ⟨hs, hne⟩]

theorem try_uuid_keep_p1 {p1 p2 ptr : String} {v1 v2 : List Char}
    (h1 : extract_uuid_version_set p1 = some v1)
    (h2 : extract_uuid_version_set p2 = some v2)
    (hint : setInter v1 v2 ≠ []) (hs12 : setSubset v1 v2 = true)
    (hs21 : setSubset v2 v1 = false) :
    try_uuid_pattern_specialization [.str p1, .str p2] ptr = .ok (some p1) := by
  have hne12 : v1 ≠ v2 := by
    intro e
    rw [e, setSubset_refl] at hs21
    cases hs21
  unfold try_uuid_pattern_specialization
  simp only
  rw [h1, h2]
  simp only
  rw [if_neg hint, if_neg (fun hc => by rw [hc.1] at hs21; cases hs21),
    if_pos ⟨hs12, hne12⟩]

theorem try_uuid_conflict {p1 p2 ptr : String} {v1 v2 : List Char}
    (h1 : extract_uuid_version_set p1 = some v1)
    (h2 : extract_uuid_version_set p2 = some v2)
    (hint : setInter v1 v2 = []) :
    try_uuid_pattern_specialization [.str p1, .str p2] ptr =
      .error (.valueError (uuidConflictMsg ptr v1 v2)) := by
  unfold try_uuid_pattern_specialization
  simp only
  rw [h1, h2]
  simp only
  rw [if_pos hint]

/-! ## mergePatterns case lemmas -/

theorem mergePatterns_specialized {merged : JSON} {p1 p2 p ptr : String} {strict : Bool}
    (hu : try_uuid_pattern_specialization [.str p1, .str p2] ptr = .ok (some p)) :
    mergePatterns merged [.str p1, .str p2] ptr strict =
      .ok (merged.set "pattern" (.str p), []) := by
  unfold mergePatterns
  rw [if_neg (by simp), hu]

theorem mergePatterns_conflict_strict {merged : JSON} {p1 p2 ptr msg : String}
    (hu : try_uuid_pattern_specialization [.str p1, .str p2] ptr =
      .error (.valueError msg)) :
    mergePatterns merged [.str p1, .str p2] ptr true = .error (.valueError msg) := by
  unfold mergePatterns
  rw [if_neg (by simp), hu]
  rfl

theorem mergePatterns_conflict_lenient {merged : JSON} {p1 p2 ptr msg : String}
    (hu : try_uuid_pattern_specialization [.str p1, .str p2] ptr =
      .error (.valueError msg)) :
    mergePatterns merged [.str p1, .str p2] ptr false =
      .ok (merged.set "pattern" (.str p1),
        ["Pattern conflict (lenient mode): " ++ msg]) := by
  unfold mergePatterns
  rw [if_neg (by simp), hu]
  rfl

/-! ## Claims C10, C5, C6, C3 -/

/-- C10: a schema whose `enum` key is the empty list classifies as the
string-enum tag: the all-values-are-strings check in `is_enum_str` is
vacuously true for an empty enum, so `classify_shape` returns `"enum_str"`
(rather than `"unknown"`) on the minimal such schema. -/
theorem claim_C10_empty_enum_classifies_enum_str (s : JSON)
    (h : s.get? "enum" = some (.arr [])) :
    is_enum_str s = true ∧
    classify_shape (JSON.obj [("enum", JSON.arr [])]) = "enum_str" := by
  constructor
  · cases s with
    | obj kvs => simp [is_enum_str, h]
    | null => simp [JSON.get?] at h
    | bool b => simp [JSON.get?] at h
    | num n => simp [JSON.get?] at h
    | str t => simp [JSON.get?] at h
    | arr xs => simp [JSON.get?] at h
  · rfl

/-- Witness for C10 at the concrete schema `{"enum": []}`. -/
theorem claim_C10_empty_enum_classifies_enum_str_witness :
    is_enum_str (JSON.obj [("enum", JSON.arr [])]) = true ∧
    classify_shape (JSON.obj [("enum", JSON.arr [])]) = "enum_str" :=
  claim_C10_empty_enum_classifies_enum_str (JSON.obj [("enum", JSON.arr [])]) rfl

/-- C5: whenever `merge_constraints` succeeds on a refinement chain, the
merged node's minLength is the maximum of the branch minLength values
present and its maxLength the minimum of the branch maxLength values;
minimum/maximum are merged analogously. -/
theorem claim_C5_bound_merging (branches : List JSON) (t ptr : String) (strict : Bool)
    (m : JSON) (warns : List String)
    (hok : merge_constraints branches t ptr strict = .ok (m, warns)) :
    (∀ a as, collectVals branches "minLength" = (a :: as).map JSON.num →
      m.get? "minLength" = some (.num (intMax a as))) ∧
    (∀ a as, collectVals branches "maxLength" = (a :: as).map JSON.num →
      m.get? "maxLength" = some (.num (intMin a as))) ∧
    (∀ a as, collectVals branches "minimum" = (a :: as).map JSON.num →
      m.get? "minimum" = some (.num (intMax a as))) ∧
    (∀ a as, collectVals branches "maximum" = (a :: as).map JSON.num →
      m.get? "maximum" = some (.num (intMin a as))) := by
  obtain ⟨m1, w1, m2, m3, m4, w2, hmp, hml, hmb, hme, hm, hw⟩ := merge_constraints_decomp hok
  unfold mergeLengths at hml
  unfold mergeBounds at hmb
  have hobj0 : (JSON.obj [("type", JSON.str t)]).isObj = true := rfl
  have hobj1 := mergePatterns_ok_isObj hobj0 hmp
  have hobj2 := mergeMinMaxPair_ok_isObj hobj1 hml
  subst hm
  refine ⟨fun a as hcoll => ?_, fun a as hcoll => ?_, fun a as hcoll => ?_,
    fun a as hcoll => ?_⟩
  · rw [mergeFormat_get_other (by decide), mergeEnums_ok_other (by decide) hme,
      mergeMinMaxPair_ok_other (k := "minLength") (by decide) (by decide) hmb]
    exact mergeMinMaxPair_ok_lo hobj1 (by decide) hcoll hml
  · rw [mergeFormat_get_other (by decide), mergeEnums_ok_other (by decide) hme,
      mergeMinMaxPair_ok_other (k := "maxLength") (by decide) (by decide) hmb]
    exact mergeMinMaxPair_ok_hi hobj1 hcoll hml
  · rw [mergeFormat_get_other (by decide), mergeEnums_ok_other (by decide) hme]
    exact mergeMinMaxPair_ok_lo hobj2 (by decide) hcoll hmb
  · rw [mergeFormat_get_other (by decide), mergeEnums_ok_other (by decide) hme]
    exact mergeMinMaxPair_ok_hi hobj2 hcoll hmb

/-- Witness for C5 on two length-constrained string branches. -/
theorem claim_C5_bound_merging_witness :
    merge_constraints exC5branches "string" "#/properties/w" true = .ok (exC5merged, []) ∧
    exC5merged.get? "minLength" = some (.num (intMax 3 [5])) ∧
    exC5merged.get? "maxLength" = some (.num (intMin 20 [10])) := by
  have hok : merge_constraints exC5branches "string" "#/properties/w" true =
      .ok (exC5merged, []) := rfl
  exact ⟨hok,
    (claim_C5_bound_merging exC5branches "string" "#/properties/w" true exC5merged [] hok).1
      3 [5] rfl,
    (claim_C5_bound_merging exC5branches "string" "#/properties/w" true exC5merged [] hok).2.1
      20 [10] rfl⟩

/-- C6: with exactly two recognized UUID patterns whose version sets are
`v1`, `v2`: if one set is a strict subset of the other (and the sets
intersect), the merged node keeps the pattern with the smaller set; if the
intersection is empty, strict mode fails with a `ValueError` whose message
renders both version sets. -/
theorem claim_C6_uuid_specialization (branches : List JSON) (t ptr : String) (strict : Bool)
    (p1 p2 : String) (v1 v2 : List Char)
    (hpats : collectVals branches "pattern" = [.str p1, .str p2])
    (h1 : extract_uuid_version_set p1 = some v1)
    (h2 : extract_uuid_version_set p2 = some v2) :
    ((setSubset v2 v1 = true ∧ setSubset v1 v2 = false ∧ setInter v1 v2 ≠ []) →
      ∀ m warns, merge_constraints branches t ptr strict = .ok (m, warns) →
        m.get? "pattern" = some (.str p2)) ∧
    ((setSubset v1 v2 = true ∧ setSubset v2 v1 = false ∧ setInter v1 v2 ≠ []) →
      ∀ m warns, merge_constraints branches t ptr strict = .ok (m, warns) →
        m.get? "pattern" = some (.str p1)) ∧
    (setInter v1 v2 = [] →
      merge_constraints branches t ptr true =
        .error (.valueError (uuidConflictMsg ptr v1 v2)) ∧
      uuidConflictMsg ptr v1 v2 =
        ("UUID pattern conflict at " ++ ptr ++ ":\n  Base allows versions: ") ++
          pyReprCharList v1 ++ "\n  Refinement requires: " ++ pyReprCharList v2 ++
          ("\n  Intersection: empty (unsatisfiable)" ++
            "\n  Example: Cannot refine UUID v1-5 to require v7")) := by
  refine ⟨?_, ?_, ?_⟩
  · rintro ⟨hs21, hs12, hint⟩ m warns hok
    have hne : v2 ≠ v1 := by
      intro e
      rw [e, setSubset_refl] at hs12
      cases hs12
    obtain ⟨m1, w1, m2, m3, m4, w2, hmp, hml, hmb, hme, hm, hw⟩ := merge_constraints_decomp hok
    rw [hpats, mergePatterns_specialized (try_uuid_keep_p2 h1 h2 hint hs21 hne)] at hmp
    cases hmp
    subst hm
    unfold mergeLengths at hml
    unfold mergeBounds at hmb
    rw [mergeFormat_get_other (by decide), mergeEnums_ok_other (by decide) hme,
      mergeMinMaxPair_ok_other (by decide) (by decide) hmb,
      mergeMinMaxPair_ok_other (by decide) (by decide) hml]
    refine JSON.get?_set_self ?_ _ _
    rfl
  · rintro ⟨hs12, hs21, hint⟩ m warns hok
    obtain ⟨m1, w1, m2, m3, m4, w2, hmp, hml, hmb, hme, hm, hw⟩ := merge_constraints_decomp hok
    rw [hpats, mergePatterns_specialized (try_uuid_keep_p1 h1 h2 hint hs12 hs21)] at hmp
    cases hmp
    subst hm
    unfold mergeLengths at hml
    unfold mergeBounds at hmb
    rw [mergeFormat_get_other (by decide), mergeEnums_ok_other (by decide) hme,
      mergeMinMaxPair_ok_other (by decide) (by decide) hmb,
      mergeMinMaxPair_ok_other (by decide) (by decide) hml]
    refine JSON.get?_set_self ?_ _ _
    rfl
  · intro hint
    refine ⟨?_, rfl⟩
    apply merge_constraints_error_of_patterns
    rw [hpats]
    exact mergePatterns_conflict_strict (try_uuid_conflict h1 h2 hint)

/-- Witness for C6: version sets {1..7} vs {7}; the collapse keeps the v7
pattern. -/
theorem claim_C6_uuid_specialization_witness :
    merge_constraints exC6branches "string" "#/properties/e" true = .ok (exC6merged, []) ∧
    exC6merged.get? "pattern" = some (.str uuidPat7) := by
  have hok : merge_constraints exC6branches "string" "#/properties/e" true =
      .ok (exC6merged, []) := rfl
  refine ⟨hok, ?_⟩
  exact (claim_C6_uuid_specialization exC6branches "string" "#/properties/e" true
    uuidPat17 uuidPat7 verSet17 verSet7 rfl rfl rfl).1
    ⟨by decide, by decide, by decide⟩ exC6merged [] hok

/-- C3 (counterexample): lenient-mode collapse of two conflicting UUID
patterns does not set `_validator_patterns` — contrary to the claim, the
merged node carries only the first branch's pattern (one warning emitted). -/
theorem claim_C3_counterexample :
    (merge_constraints exC3branches "string" "#/properties/event_id" false).map
      (fun r => (r.1.get? "_validator_patterns", r.1.get? "pattern", r.2.length)) =
    .ok (none, some (.str uuidPat15), 1) := rfl

/-- C3 (amended): in lenient mode, a refinement chain with exactly two
recognized UUID patterns with empty version-set intersection proceeds with a
warning and keeps the first branch's pattern as the merged pattern; the
`_validator_patterns` fallback key is not set. -/
theorem claim_C3_lenient_conflict (branches : List JSON) (t ptr : String)
    (p1 p2 : String) (v1 v2 : List Char) (m : JSON) (warns : List String)
    (hpats : collectVals branches "pattern" = [.str p1, .str p2])
    (h1 : extract_uuid_version_set p1 = some v1)
    (h2 : extract_uuid_version_set p2 = some v2)
    (hint : setInter v1 v2 = [])
    (hok : merge_constraints branches t ptr false = .ok (m, warns)) :
    m.get? "pattern" = some (.str p1) ∧
    m.get? "_validator_patterns" = none ∧
    warns.head? = some ("Pattern conflict (lenient mode): " ++ uuidConflictMsg ptr v1 v2) := by
  obtain ⟨m1, w1, m2, m3, m4, w2, hmp, hml, hmb, hme, hm, hw⟩ := merge_constraints_decomp hok
  rw [hpats, mergePatterns_conflict_lenient (try_uuid_conflict h1 h2 hint)] at hmp
  cases hmp
  subst hm
  unfold mergeLengths at hml
  unfold mergeBounds at hmb
  refine ⟨?_, ?_, ?_⟩
  · rw [mergeFormat_get_other (by decide), mergeEnums_ok_other (by decide) hme,
      mergeMinMaxPair_ok_other (by decide) (by decide) hmb,
      mergeMinMaxPair_ok_other (by decide) (by decide) hml]
    refine JSON.get?_set_self ?_ _ _
    rfl
  · rw [mergeFormat_get_other (by decide), mergeEnums_ok_other (by decide) hme,
      mergeMinMaxPair_ok_other (by decide) (by decide) hmb,
      mergeMinMaxPair_ok_other (by decide) (by decide) hml,
      JSON.get?_set_ne _ _ (by decide)]
    rfl
  · rw [hw]
    rfl

/-! ## Claim C1 -/

/-- The branch-resolution loop feeds every `$ref` branch through
`resolve_ref` against the *document* URI it was given. -/
theorem resolveAllofGo_refs (index : SIndex) (doc_uri : String) :
    ∀ (branches res : List JSON) (i : Nat) (visited : List Addr),
      resolveAllofGo index doc_uri branches i visited = .ok res →
      ∀ (k : Nat) (b : JSON) (r : String),
        branches.get? k = some b → b.get? "$ref" = some (.str r) →
        ∃ node addr,
          index.node_for (index.resolve_ref r doc_uri) = .ok (some (node, addr)) ∧
          res.get? k = some node := by
  intro branches
  induction branches with
  | nil =>
    intro res i visited h k b r hk hr
    cases hk
  | cons br rest ih =>
    intro res i visited h k b r hk hr
    rw [resolveAllofGo] at h
    cases href : br.get? "$ref" with
    | none =>
      rw [href] at h
      cases hrest : resolveAllofGo index doc_uri rest (i + 1) visited with
      | error e => rw [hrest] at h; cases h
      | ok res2 =>
        rw [hrest] at h
        simp only [Except.map] at h
        cases h
        cases k with
        | zero =>
          cases hk
          rw [href] at hr
          cases hr
        | succ k2 =>
          exact ih res2 (i + 1) visited hrest k2 b r hk hr
    | some refv =>
      rw [href] at h
      cases refv with
      | str ref_uri =>
        cases hnf : index.node_for (index.resolve_ref ref_uri doc_uri) with
        | error e => simp only [hnf] at h; cases h
        | ok nopt =>
          cases nopt with
          | none => simp only [hnf] at h; cases h
          | some p =>
            obtain ⟨node, addr⟩ := p
            simp only [hnf] at h
            by_cases htru : node.truthy
            · rw [if_neg (by simp [htru])] at h
              by_cases hvis : addr ∈ visited
              · rw [if_pos hvis] at h; cases h
              · rw [if_neg hvis] at h
                cases hrest : resolveAllofGo index doc_uri rest (i + 1)
                    (visited ++ [addr]) with
                | error e => rw [hrest] at h; cases h
                | ok res2 =>
                  rw [hrest] at h
                  simp only [Except.map] at h
                  cases h
                  cases k with
                  | zero =>
                    cases hk
                    rw [href] at hr
                    cases hr
                    exact ⟨node, addr, hnf, rfl⟩
                  | succ k2 =>
                    exact ih res2 (i + 1) (visited ++ [addr]) hrest k2 b r hk hr
            · rw [if_pos (by simpa using htru)] at h
              cases h
      | null => cases h
      | bool b2 => cases h
      | num n => cases h
      | arr xs => cases h
      | obj kvs => cases h

/-- C1 (counterexample): the Collapser does not resolve an allOf branch
against the nested base URI.  In `exC1docA`, the subtree `$defs/S` declares
`$id: http://x/s.json`; the index records that base and `refs_from` resolves
`other.json` to `http://x/other.json`, which `node_for` finds.  But
`resolve_allof_branches`, given the containing document's URI (exactly what
`process_allof_collapse` passes via `doc_uri_for_path`), resolves the branch
to `lithify:///other.json` and fails. -/
theorem claim_C1_counterexample :
    assocGet exC1index.subschemaBases ("a.json", ["$defs", "S"]) =
      some "http://x/s.json" ∧
    exC1index.refs_from ⟨"lithify:///a.json", "#/$defs/S"⟩ =
      .ok ["http://x/other.json"] ∧
    exC1index.node_for "http://x/other.json" =
      .ok (some (exC1docB, ("b.json", []))) ∧
    exC1index.doc_uri_for_path "a.json" = some "lithify:///a.json" ∧
    exC1index.resolve_ref "other.json" "lithify:///a.json" = "lithify:///other.json" ∧
    resolve_allof_branches exC1branches exC1index "#/$defs/S" "lithify:///a.json" =
      .error (.valueError "Cannot resolve $ref in allOf[0]: other.json") :=
  ⟨rfl, rfl, rfl, rfl, rfl, rfl⟩

/-- C1 (amended): references reported by the index (`refs_from`) are
resolved against the containing node's recorded base URI (a nested `$id`
rebases them), but when the Collapser resolves allOf branches, every branch
`$ref` is resolved against the containing document's URI via `resolve_ref`;
a nested `$id` does not rebase branch resolution. -/
theorem claim_C1_branch_resolution (index : SIndex) (doc_uri json_pointer : String)
    (branches res : List JSON) (k : Nat) (b : JSON) (r : String)
    (hok : resolve_allof_branches branches index json_pointer doc_uri = .ok res)
    (hk : branches.get? k = some b) (hr : b.get? "$ref" = some (.str r)) :
    (∃ node addr,
      index.node_for (index.resolve_ref r doc_uri) = .ok (some (node, addr)) ∧
      res.get? k = some node) ∧
    exC1index.refs_from ⟨"lithify:///a.json", "#/$defs/S"⟩ =
      .ok ["http://x/other.json"] ∧
    assocGet exC1index.subschemaBases ("a.json", ["$defs", "S"]) =
      some "http://x/s.json" := by
  refine ⟨?_, rfl, rfl⟩
  unfold resolve_allof_branches at hok
  cases hgo : resolveAllofGo index doc_uri branches 0 [] with
  | error e => rw [hgo] at hok; cases hok
  | ok resolved =>
    rw [hgo] at hok
    dsimp only at hok
    by_cases hemp : resolved.isEmpty
    · rw [if_pos hemp] at hok; cases hok
    · rw [if_neg hemp] at hok
      cases hok
      exact resolveAllofGo_refs index doc_uri branches res 0 [] hgo k b r hk hr

/-- Witness for the amended C1 on the `Base` chain of `exNestedDoc`: the
first branch's `$ref` resolves through the document URI to the `Primitive`
node, which is what the resolved branch list holds. -/
theorem claim_C1_branch_resolution_witness :
    resolve_allof_branches exBaseBranches exNestedIndex "#/$defs/Base"
      "file:///t/nested.json" =
      .ok [exPrimitiveNode, .obj [("minLength", .num 3)]] ∧
    [exPrimitiveNode, JSON.obj [("minLength", .num 3)]].get? 0 = some exPrimitiveNode := by
  have hok : resolve_allof_branches exBaseBranches exNestedIndex "#/$defs/Base"
      "file:///t/nested.json" = .ok [exPrimitiveNode, .obj [("minLength", .num 3)]] := rfl
  obtain ⟨⟨node, addr, hnf, hres⟩, -, -⟩ :=
    claim_C1_branch_resolution exNestedIndex "file:///t/nested.json" "#/$defs/Base"
      exBaseBranches [exPrimitiveNode, .obj [("minLength", .num 3)]] 0
      (.obj [("$ref", .str "#/$defs/Primitive")]) "#/$defs/Primitive" hok rfl rfl
  have hnf0 : exNestedIndex.node_for
      (exNestedIndex.resolve_ref "#/$defs/Primitive" "file:///t/nested.json") =
      .ok (some (exPrimitiveNode, ("nested.json", ["$defs", "Primitive"]))) := rfl
  rw [hnf0] at hnf
  cases hnf
  exact ⟨hok, hres⟩

/-! ## Claim C4 -/

theorem JSON.isObj_of_get? {j : JSON} {k : String} {v : JSON} (h : j.get? k = some v) :
    j.isObj = true := by
  cases j with
  | obj kvs => rfl
  | null => simp [JSON.get?] at h
  | bool b => simp [JSON.get?] at h
  | num n => simp [JSON.get?] at h
  | str s => simp [JSON.get?] at h
  | arr xs => simp [JSON.get?] at h

/-- The branch walk of a caught-error node preserves the branch count. -/
theorem collapseArr_length {index : SIndex} {docUri fileName : String}
    {pc : Option String} {strict : Bool} {xs : List JSON} {fuel : Nat} {ptr : String}
    {i : Nat} {xs2 : List JSON} {a : CollapseAcc}
    (h : collapseArr fuel index docUri fileName pc strict xs ptr i = .ok (xs2, a)) :
    xs2.length = xs.length := by
  induction xs generalizing fuel i xs2 a with
  | nil =>
    cases fuel with
    | zero => simp [collapseArr] at h
    | succ fuel =>
      unfold collapseArr at h
      simp only [Except.ok.injEq, Prod.mk.injEq] at h
      rw [← h.1]
  | cons x rest ih =>
    cases fuel with
    | zero => simp [collapseArr] at h
    | succ fuel =>
      rw [collapseArr] at h
      split at h
      · simp at h
      · split at h
        · simp at h
        · simp only [Except.ok.injEq, Prod.mk.injEq] at h
          rw [← h.1]
          simp only [List.length_cons]
          rename_i rest2 b heq2
          rw [ih heq2]

/-- A map-category step either leaves the node alone or sets its own key. -/
theorem stepKvsC_shape {fuel : Nat} {index : SIndex} {docUri fileName : String}
    {pc : Option String} {strict : Bool} {orig : JSON} {jp key : String} {esc : Bool}
    {cur c2 : JSON} {a : CollapseAcc}
    (h : stepKvsC fuel index docUri fileName pc strict orig jp key esc cur =
      .ok (c2, a)) :
    c2 = cur ∨ ∃ v, c2 = cur.set key v := by
  cases fuel with
  | zero => simp [stepKvsC] at h
  | succ fuel =>
    unfold stepKvsC at h
    split at h
    · split at h
      · simp at h
      · simp only [Except.ok.injEq, Prod.mk.injEq] at h
        exact Or.inr ⟨_, h.1.symm⟩
    · simp only [Except.ok.injEq, Prod.mk.injEq] at h
      exact Or.inl h.1.symm

/-- A single-subschema step either leaves the node alone or sets its key. -/
theorem stepObjC_shape {fuel : Nat} {index : SIndex} {docUri fileName : String}
    {pc : Option String} {strict : Bool} {orig : JSON} {jp key : String}
    {cur c2 : JSON} {a : CollapseAcc}
    (h : stepObjC fuel index docUri fileName pc strict orig jp key cur = .ok (c2, a)) :
    c2 = cur ∨ ∃ v, c2 = cur.set key v := by
  cases fuel with
  | zero => simp [stepObjC] at h
  | succ fuel =>
    unfold stepObjC at h
    split at h
    · split at h
      · simp at h
      · simp only [Except.ok.injEq, Prod.mk.injEq] at h
        exact Or.inr ⟨_, h.1.symm⟩
    · simp only [Except.ok.injEq, Prod.mk.injEq] at h
      exact Or.inl h.1.symm

/-- A list-category step either leaves the node alone or sets its key. -/
theorem stepArrC_shape {fuel : Nat} {index : SIndex} {docUri fileName : String}
    {pc : Option String} {strict : Bool} {orig : JSON} {jp key : String}
    {cur c2 : JSON} {a : CollapseAcc}
    (h : stepArrC fuel index docUri fileName pc strict orig jp key cur = .ok (c2, a)) :
    c2 = cur ∨ ∃ v, c2 = cur.set key v := by
  cases fuel with
  | zero => simp [stepArrC] at h
  | succ fuel =>
    unfold stepArrC at h
    split at h
    · split at h
      · simp at h
      · simp only [Except.ok.injEq, Prod.mk.injEq] at h
        exact Or.inr ⟨_, h.1.symm⟩
    · simp only [Except.ok.injEq, Prod.mk.injEq] at h
      exact Or.inl h.1.symm

/-- The items step either leaves the node alone or sets `items`. -/
theorem stepItemsC_shape {fuel : Nat} {index : SIndex} {docUri fileName : String}
    {pc : Option String} {strict : Bool} {orig : JSON} {jp : String}
    {cur c2 : JSON} {a : CollapseAcc}
    (h : stepItemsC fuel index docUri fileName pc strict orig jp cur = .ok (c2, a)) :
    c2 = cur ∨ ∃ v, c2 = cur.set "items" v := by
  cases fuel with
  | zero => simp [stepItemsC] at h
  | succ fuel =>
    unfold stepItemsC at h
    split at h
    · split at h
      · simp at h
      · simp only [Except.ok.injEq, Prod.mk.injEq] at h
        exact Or.inr ⟨_, h.1.symm⟩
    · split at h
      · simp at h
      · simp only [Except.ok.injEq, Prod.mk.injEq] at h
        exact Or.inr ⟨_, h.1.symm⟩
    · simp only [Except.ok.injEq, Prod.mk.injEq] at h
      exact Or.inl h.1.symm

/-- The allOf list step rewrites the branches list element-wise, keeping
its length. -/
theorem stepArrC_allOf {fuel : Nat} {index : SIndex} {docUri fileName : String}
    {pc : Option String} {strict : Bool} {orig : JSON} {jp : String}
    {cur c2 : JSON} {a : CollapseAcc} {xs : List JSON}
    (ho : orig.get? "allOf" = some (.arr xs))
    (h : stepArrC fuel index docUri fileName pc strict orig jp "allOf" cur =
      .ok (c2, a)) :
    ∃ xs2, xs2.length = xs.length ∧ c2 = cur.set "allOf" (.arr xs2) := by
  cases fuel with
  | zero => simp [stepArrC] at h
  | succ fuel =>
    unfold stepArrC at h
    rw [ho] at h
    split at h
    · rename_i x branches heq
      simp only [Option.some.injEq, JSON.arr.injEq] at heq
      subst heq
      split at h
      · simp at h
      · simp only [Except.ok.injEq, Prod.mk.injEq] at h
        rename_i xs2 a2 heq2
        exact ⟨xs2, collapseArr_length heq2, h.1.symm⟩
    · rename_i hcontra
      exact absurd rfl (hcontra xs)

/-- Transport of object-ness through one category step. -/
theorem step_isObj_aux {cur c2 : JSON} {key : String}
    (hs : c2 = cur ∨ ∃ v, c2 = cur.set key v) (hobj : cur.isObj = true) :
    c2.isObj = true := by
  rcases hs with he | ⟨v, he⟩
  · subst he; exact hobj
  · subst he; rw [JSON.isObj_set]; exact hobj

/-- Transport of the rewritten allOf entry through a later category step. -/
theorem step_get_allOf_aux {cur c2 : JSON} {key : String} (hne : "allOf" ≠ key)
    (hs : c2 = cur ∨ ∃ v, c2 = cur.set key v) {w : JSON}
    (hget : cur.get? "allOf" = some w) : c2.get? "allOf" = some w := by
  rcases hs with he | ⟨v, he⟩
  · subst he; exact hget
  · subst he; rw [JSON.get?_set_ne _ _ hne]; exact hget

/-- Through the post-properties category chain, a ≥2-branch allOf key of
the original node survives into the output node, so the node still
classifies as an allOf refinement. -/
theorem collapseChildren2_allOf {fuel : Nat} {index : SIndex} {docUri fileName : String}
    {pc : Option String} {cur orig : JSON} {json_ptr : String} {acc0 : CollapseAcc}
    {node2 : JSON} {acc2 : CollapseAcc} {xs : List JSON}
    (ho : orig.get? "allOf" = some (.arr xs)) (hxs : 2 ≤ xs.length)
    (hcur : cur.isObj = true)
    (h : collapseChildren2 fuel index docUri fileName pc true cur orig json_ptr acc0 =
      .ok (node2, acc2)) :
    is_allof_refinement node2 = true := by
  cases fuel with
  | zero => simp [collapseChildren2] at h
  | succ fuel =>
    unfold collapseChildren2 at h
    split at h
    · simp at h
    rename_i cur1 a1 h1
    have hc1 := step_isObj_aux (stepKvsC_shape h1) hcur
    split at h
    · simp at h
    rename_i cur2 a2 h2
    have hc2 := step_isObj_aux (stepObjC_shape h2) hc1
    split at h
    · simp at h
    rename_i cur3 a3 h3
    have hc3 := step_isObj_aux (stepItemsC_shape h3) hc2
    split at h
    · simp at h
    rename_i cur4 a4 h4
    have hc4 := step_isObj_aux (stepArrC_shape h4) hc3
    split at h
    · simp at h
    rename_i cur5 a5 h5
    have hc5 := step_isObj_aux (stepObjC_shape h5) hc4
    split at h
    · simp at h
    rename_i cur6 a6 h6
    obtain ⟨xs2, hlen2, he6⟩ := stepArrC_allOf ho h6
    have hget6 : cur6.get? "allOf" = some (.arr xs2) := by
      subst he6; exact JSON.get?_set_self hc5 _ _
    split at h
    · simp at h
    rename_i cur7 a7 h7
    have hget7 := step_get_allOf_aux (by decide) (stepArrC_shape h7) hget6
    split at h
    · simp at h
    rename_i cur8 a8 h8
    have hget8 := step_get_allOf_aux (by decide) (stepArrC_shape h8) hget7
    split at h
    · simp at h
    rename_i cur9 a9 h9
    have hget9 := step_get_allOf_aux (by decide) (stepObjC_shape h9) hget8
    split at h
    · simp at h
    rename_i cur10 a10 h10
    have hget10 := step_get_allOf_aux (by decide) (stepObjC_shape h10) hget9
    split at h
    · simp at h
    rename_i cur11 a11 h11
    have hget11 := step_get_allOf_aux (by decide) (stepObjC_shape h11) hget10
    split at h
    · simp at h
    rename_i cur12 a12 h12
    have hget12 := step_get_allOf_aux (by decide) (stepObjC_shape h12) hget11
    split at h
    · simp at h
    rename_i cur13 a13 h13
    have hget13 := step_get_allOf_aux (by decide) (stepKvsC_shape h13) hget12
    split at h
    · simp at h
    rename_i cur14 a14 h14
    have hget14 := step_get_allOf_aux (by decide) (stepKvsC_shape h14) hget13
    split at h
    · simp at h
    rename_i cur15 a15 h15
    have hget15 := step_get_allOf_aux (by decide) (stepKvsC_shape h15) hget14
    simp only [Except.ok.injEq, Prod.mk.injEq] at h
    obtain ⟨hn, -⟩ := h
    subst hn
    simp only [is_allof_refinement, hget15]
    exact decide_eq_true (by omega)

/-- The children walk of a node whose allOf has ≥2 branches returns a node
that still classifies as an allOf refinement. -/
theorem collapseChildren_allOf {fuel : Nat} {index : SIndex} {docUri fileName : String}
    {pc : Option String} {node : JSON} {json_ptr : String} {node2 : JSON}
    {acc2 : CollapseAcc} {xs : List JSON}
    (ho : node.get? "allOf" = some (.arr xs)) (hxs : 2 ≤ xs.length)
    (h : collapseChildren fuel index docUri fileName pc true node json_ptr =
      .ok (node2, acc2)) :
    is_allof_refinement node2 = true := by
  cases fuel with
  | zero => simp [collapseChildren] at h
  | succ fuel =>
    unfold collapseChildren at h
    split at h
    · split at h
      · simp at h
      · refine collapseChildren2_allOf ho hxs ?_ h
        rw [JSON.isObj_set]
        exact JSON.isObj_of_get? ho
    · exact collapseChildren2_allOf ho hxs (JSON.isObj_of_get? ho) h

set_option maxRecDepth 200000 in
set_option maxHeartbeats 1000000 in
/-- C4: in strict mode, a refinement chain whose merged constraints fail
`validate_satisfiability` is never collapsed — the walk returns the node
still carrying its allOf composition — and the `ValueError` is recorded at
the head of the accumulated error list while the pass continues; whenever
the loop ends with a non-empty error list in strict mode,
`process_allof_collapse` aborts with a `RuntimeError` reporting every
accumulated error joined together, as the two-conflict document `exC4doc`
shows concretely: one pass collects both errors, leaves the documents
unchanged with zero collapses, and the run aborts naming both. -/
theorem claim_C4_strict_unsatisfiable
    (index : SIndex) (docUri fileName json_ptr : String) (parentClass : Option String)
    (fuel : Nat) (node node2 : JSON) (branches resolved : List JSON)
    (scalar_type msg : String) (merged : JSON) (ws : List String) (acc : CollapseAcc)
    (hall : node.get? "allOf" = some (.arr branches))
    (hlen : 2 ≤ branches.length)
    (hres : resolve_allof_branches branches index json_ptr docUri = .ok resolved)
    (hty : validate_scalar_types resolved json_ptr = .ok scalar_type)
    (hmg : merge_constraints resolved scalar_type json_ptr true = .ok (merged, ws))
    (hsat : validate_satisfiability merged json_ptr true = .error (.valueError msg))
    (hcn : collapseNode fuel index docUri fileName parentClass true node json_ptr =
      .ok (node2, acc)) :
    is_allof_refinement node2 = true ∧
    acc.errors.head? = some ⟨fileName, json_ptr, msg⟩ ∧
    (∀ (docs : List (String × JSON)) (index2 : SIndex) (r : CollapseResult),
      collapseLoop 10 docs index2 index2.baseUrl true [] 0 [] [] 0 = .ok r →
      r.errors ≠ [] →
      process_allof_collapse docs index2 true = .error (.runtimeError
        ("allOf processing encountered " ++ toString r.errors.length ++
         " error(s):\n\n" ++
         String.intercalate "\n\n" (r.errors.map ValidationError.toStr )))) ∧
    onePass exC4index true [("c4.json", exC4doc)] =
      .ok ⟨[("c4.json", exC4doc)], 0, [exC4errP, exC4errQ], [], []⟩ ∧
    process_allof_collapse [("c4.json", exC4doc)] exC4index true =
      .error (.runtimeError exC4abortMsg) := by
  have hTry : collapseTry index docUri true branches json_ptr =
      .error (.valueError msg) := by
    unfold collapseTry
    simp only [hres, hty, hmg, hsat]
  have hMain : is_allof_refinement node2 = true ∧
      acc.errors.head? = some ⟨fileName, json_ptr, msg⟩ := by
    cases fuel with
    | zero => simp [collapseNode] at hcn
    | succ fuel =>
      have href : is_allof_refinement node = true := by
        simp only [is_allof_refinement, hall]
        exact decide_eq_true hlen
      unfold collapseNode at hcn
      split at hcn
      · split at hcn
        · rename_i branches2 heqa
          rw [hall] at heqa
          simp only [Option.some.injEq, JSON.arr.injEq] at heqa
          subst heqa
          split at hcn
          · rename_i merged2 ws2 heqt
            rw [hTry] at heqt
            simp at heqt
          · rename_i msg2 heqt
            rw [hTry] at heqt
            simp only [Except.error.injEq, PyExc.valueError.injEq] at heqt
            subst heqt
            split at hcn
            · simp at hcn
            · rename_i node3 acc3 heqc
              simp only [Except.ok.injEq, Prod.mk.injEq] at hcn
              obtain ⟨hn, ha⟩ := hcn
              subst hn
              subst ha
              exact ⟨collapseChildren_allOf hall hlen heqc, rfl⟩
          · simp at hcn
        · rename_i hne2
          exact absurd hall (hne2 branches)
      · rename_i hfalse
        exact absurd href (by simpa using hfalse)
  refine ⟨hMain.1, hMain.2, ?_, rfl, rfl⟩
  intro docs index2 r hlp hne
  have hF : r.errors.isEmpty = false := by
    cases herr : r.errors with
    | nil => exact absurd herr hne
    | cons x t => simp [List.isEmpty]
  unfold process_allof_collapse
  rw [hlp]
  simp [hF]

set_option maxRecDepth 200000 in
set_option maxHeartbeats 1000000 in
/-- Witness for C4 at the unsatisfiable string chain of `exC4doc`. -/
theorem claim_C4_strict_unsatisfiable_witness :
    is_allof_refinement exC4nodeP = true ∧
    (CollapseAcc.mk 0 [exC4errP] [] []).errors.head? =
      some ⟨"c4.json", "#/properties/p", exC4msgP⟩ ∧
    (∀ (docs : List (String × JSON)) (index2 : SIndex) (r : CollapseResult),
      collapseLoop 10 docs index2 index2.baseUrl true [] 0 [] [] 0 = .ok r →
      r.errors ≠ [] →
      process_allof_collapse docs index2 true = .error (.runtimeError
        ("allOf processing encountered " ++ toString r.errors.length ++
         " error(s):\n\n" ++
         String.intercalate "\n\n" (r.errors.map ValidationError.toStr )))) ∧
    onePass exC4index true [("c4.json", exC4doc)] =
      .ok ⟨[("c4.json", exC4doc)], 0, [exC4errP, exC4errQ], [], []⟩ ∧
    process_allof_collapse [("c4.json", exC4doc)] exC4index true =
      .error (.runtimeError exC4abortMsg) :=
  claim_C4_strict_unsatisfiable exC4index "lithify:///c4.json" "c4.json"
    "#/properties/p" none (100 * (exC4nodeP.size + 1)) exC4nodeP exC4nodeP
    exC4branchesP exC4branchesP "string" exC4msgP
    (.obj [("type", .str "string"), ("minLength", .num 5), ("maxLength", .num 2)])
    [] ⟨0, [exC4errP], [], []⟩ rfl (by decide) rfl rfl rfl rfl rfl

/-- Witness for the amended C3 at the concrete conflicting branches. -/
theorem claim_C3_lenient_conflict_witness :
    exC3merged.get? "pattern" = some (.str uuidPat15) ∧
    exC3merged.get? "_validator_patterns" = none ∧
    exC3warns.head? = some ("Pattern conflict (lenient mode): " ++
      uuidConflictMsg "#/properties/event_id" verSet15 verSet7) := by
  have hok : merge_constraints exC3branches "string" "#/properties/event_id" false =
      .ok (exC3merged, exC3warns) := rfl
  exact claim_C3_lenient_conflict exC3branches "string" "#/properties/event_id"
    uuidPat15 uuidPat7 verSet15 verSet7 exC3merged exC3warns rfl rfl rfl rfl hok

end Lithify
